import Mathlib

/-!
Shader-source splitting and program construction (`src/main.c`).

A shallow embedding of `parseShader`, `compileShader` and `createShader`.

* C `char` arrays are lists of `Char` of a fixed length; a C string is the
  run of characters before the first NUL of the array that holds it.
* Behaviour that C leaves undefined (a write through the uninitialised
  pointer `src`, a write past the end of a 512-byte array, `strcat` onto an
  array that holds no NUL, `fgets` on a null stream) is an explicit `Fault`.
* The file behind `fp` is the list of characters still to be read.
-/

set_option autoImplicit false
set_option maxRecDepth 1000000

namespace Renderer

/-! ## C strings and the libc calls of `parseShader` -/

/-- The string terminator. -/
def NUL : Char := Char.ofNat 0

/-- The line terminator. -/
def NL : Char := Char.ofNat 10

/-- The C string stored at the start of a character sequence: everything
before the first NUL. -/
def cstr (a : List Char) : List Char := a.takeWhile (fun c => c != NUL)

/-- Whether the needle occurs at the very start of the haystack. -/
def startsWith : List Char → List Char → Bool
  | _, [] => true
  | [], _ :: _ => false
  | h :: hs, n :: ns => h == n && startsWith hs ns

/-- Substring search on character lists: is there a position of the
haystack at which the needle starts? -/
def occursIn : List Char → List Char → Bool
  | [], n => startsWith [] n
  | h :: hs, n => startsWith (h :: hs) n || occursIn hs n

/-- The call `strstr(haystack, needle)` seen as a truth value (non-null result):
both arguments are read as C strings. -/
def strstr (haystack needle : List Char) : Bool :=
  occursIn (cstr haystack) (cstr needle)

/-- A `char[n]` array: exactly `n` characters, whatever they are. -/
structure CharArray (n : Nat) where
  data : List Char
  size_eq : data.length = n

/-- The ways in which a run leaves defined behaviour: `fgets` on a null
stream, a write through the pointer `src` before anything was assigned to it,
`strcat` onto an array that holds no NUL, a write past the end of an array,
a read of an `int` that was never written, an array declared with zero
elements. `outOfFuel` belongs to the embedding only (the loop bound of
`parseLoop` ran out) and `parseShader` never produces it. -/
inductive Fault where
  | nullStream
  | wildPointer
  | unterminated
  | overflow
  | uninitialised
  | zeroSizeArray
  | outOfFuel
  deriving DecidableEq, Repr

/-- The text an array holds when read as a C string; `none` when the array
holds no NUL at all, so that reading it runs off its end. -/
def CharArray.text {n : Nat} (a : CharArray n) : Option (List Char) :=
  if NUL ∈ a.data then some (cstr a.data) else none

/-- Overwrite the cells `k, k+1, ...` of a list with the given characters. -/
def writeAt (a : List Char) (k : Nat) (s : List Char) : List Char :=
  a.take k ++ s ++ a.drop (k + s.length)

/-- The call `strcpy(dst, src)`: the C string of `src` and its terminator are
written from cell 0 of `dst`; the other cells keep their contents. Writing
past the end of `dst` is a fault. -/
def strcpy {n : Nat} (dst : CharArray n) (src : List Char) :
    Except Fault (CharArray n) :=
  if h : 0 + (cstr src ++ [NUL]).length ≤ n then
    .ok ⟨writeAt dst.data 0 (cstr src ++ [NUL]), by
      have hn := dst.size_eq
      simp only [writeAt, List.length_append, List.length_take, List.length_drop] at h ⊢
      omega⟩
  else .error .overflow

/-- The call `strcat(dst, src)`: the C string of `src` and its terminator are
written from the first NUL of `dst` on. No NUL in `dst`, or a write past the
end of `dst`, is a fault. -/
def strcat {n : Nat} (dst : CharArray n) (src : List Char) :
    Except Fault (CharArray n) :=
  if NUL ∈ dst.data then
    if h : (cstr dst.data).length + (cstr src ++ [NUL]).length ≤ n then
      .ok ⟨writeAt dst.data (cstr dst.data).length (cstr src ++ [NUL]), by
        have hn := dst.size_eq
        simp only [writeAt, List.length_append, List.length_take, List.length_drop] at h ⊢
        omega⟩
    else .error .overflow
  else .error .unterminated

/-- The characters one `fgets` call stores given room for `k` of them, and
what is left of the stream: reading stops after a newline, after `k`
characters, or at end of file. -/
def fgetsAux : Nat → List Char → List Char × List Char
  | 0, s => ([], s)
  | _ + 1, [] => ([], [])
  | k + 1, c :: s =>
    if c = NL then ([c], s) else ((fgetsAux k s).1.cons c, (fgetsAux k s).2)

/-- The call `fgets(buffer, n, fp)`: `none` (a null result) at end of file,
otherwise the characters stored in `buffer` before the terminator, at most
`n - 1` of them, and the rest of the stream. -/
def fgets (n : Nat) (fp : List Char) : Option (List Char × List Char) :=
  match fp with
  | [] => none
  | _ :: _ => some (fgetsAux (n - 1) fp)

/-! ## `parseShader` -/

/-- `struct ShaderSource`. -/
structure ShaderSource where
  VertexShader : CharArray 512
  FragmentShader : CharArray 512

/-- The two objects whose address `src` is ever assigned. -/
inductive Target where
  | vertex
  | fragment
  deriving DecidableEq, Repr

/-- The locals of `parseShader` that the loop changes: the struct `tmp` and
the pointer `src`, which is `none` as long as nothing was assigned to it. -/
structure ParseState where
  tmp : ShaderSource
  src : Option Target

/-- The local `char divider[] = "#shader"`. -/
def divider : List Char := "#shader".toList

/-- The local `char version[] = "#version"`. -/
def version : List Char := "#version".toList

/-- The local `char v[] = "vertex"`. -/
def v : List Char := "vertex".toList

/-- The local `char f[] = "fragment"`. -/
def f : List Char := "fragment".toList

/-- The array `src` points to. -/
def ParseState.deref (st : ParseState) : Except Fault (CharArray 512) :=
  match st.src with
  | none => .error .wildPointer
  | some .vertex => .ok st.tmp.VertexShader
  | some .fragment => .ok st.tmp.FragmentShader

/-- Store an array back into the field `src` points to. -/
def ParseState.assign (st : ParseState) (a : CharArray 512) : ParseState :=
  match st.src with
  | none => st
  | some .vertex => { st with tmp := { st.tmp with VertexShader := a } }
  | some .fragment => { st with tmp := { st.tmp with FragmentShader := a } }

/-- The body of the `while` loop of `parseShader` for one line in `buffer`. -/
def parseLine (st : ParseState) (buffer : List Char) : Except Fault ParseState :=
  if strstr buffer divider then
    if strstr buffer v then
      .ok { st with src := some .vertex }
    else if strstr buffer f then
      .ok { st with src := some .fragment }
    else .ok st
  else if strstr buffer version then
    do
      let dst ← st.deref
      let dst ← strcpy dst buffer
      pure (st.assign dst)
  else
    do
      let dst ← st.deref
      let dst ← strcat dst buffer
      pure (st.assign dst)

/-- The loop `while (fgets(buffer, 512, fp)) { ... }`, bounded by a number of
iterations. -/
def parseLoop : Nat → List Char → ParseState → Except Fault ParseState
  | 0, _, _ => .error .outOfFuel
  | fuel + 1, fp, st =>
    match fgets 512 fp with
    | none => .ok st
    | some (buffer, rest) =>
      match parseLine st buffer with
      | .error e => .error e
      | .ok st => parseLoop fuel rest st

/-- The function `parseShader`. `fp` is the result of `fopen`: `none` for a
null stream, otherwise the contents of the file. `tmp` is whatever the
uninitialised struct holds on entry. Every iteration reads at least one
character, so one more iteration than the file has characters is enough. -/
def parseShader (tmp : ShaderSource) (fp : Option (List Char)) :
    Except Fault ShaderSource :=
  match fp with
  | none => .error .nullStream
  | some contents =>
    match parseLoop (contents.length + 1) contents ⟨tmp, none⟩ with
    | .error e => .error e
    | .ok st => .ok st.tmp

/-- The vertex and fragment texts of a returned struct. -/
def ShaderSource.texts (s : ShaderSource) :
    Option (List Char) × Option (List Char) :=
  (s.VertexShader.text, s.FragmentShader.text)

/-- An array filled with one character. -/
def CharArray.fill (n : Nat) (c : Char) : CharArray n :=
  ⟨List.replicate n c, List.length_replicate n c⟩

/-! ## The text-level view of a run

The loop looks at the arrays of `tmp` only through the C strings they hold.
The definitions below follow a run on these texts alone; `parseLine_view`
shows that they agree with the run on the arrays. -/

/-- The text-level effect of `strcpy` into an array of `n` cells. -/
def strcpyT (n : Nat) (b : List Char) : Except Fault (List Char) :=
  if (cstr b).length + 1 ≤ n then .ok (cstr b) else .error .overflow

/-- The text-level effect of `strcat` onto an array of `n` cells holding the
given text. -/
def strcatT (n : Nat) (t : Option (List Char)) (b : List Char) :
    Except Fault (List Char) :=
  match t with
  | none => .error .unterminated
  | some t =>
    if t.length + ((cstr b).length + 1) ≤ n then .ok (t ++ cstr b)
    else .error .overflow

/-- What the C program can observe of the parse state: where `src` points
and the C string each array holds. -/
structure TextState where
  src : Option Target
  vtext : Option (List Char)
  ftext : Option (List Char)

/-- The text-level view of a parse state. -/
def ParseState.view (st : ParseState) : TextState :=
  ⟨st.src, st.tmp.VertexShader.text, st.tmp.FragmentShader.text⟩

/-- The text of the array `src` points to. -/
def TextState.deref (a : TextState) : Except Fault (Option (List Char)) :=
  match a.src with
  | none => .error .wildPointer
  | some .vertex => .ok a.vtext
  | some .fragment => .ok a.ftext

/-- Give the array `src` points to a new text. -/
def TextState.assign (a : TextState) (t : List Char) : TextState :=
  match a.src with
  | none => a
  | some .vertex => { a with vtext := some t }
  | some .fragment => { a with ftext := some t }

/-- The loop body on the text-level view. -/
def parseLineT (a : TextState) (buffer : List Char) : Except Fault TextState :=
  if strstr buffer divider then
    if strstr buffer v then
      .ok { a with src := some .vertex }
    else if strstr buffer f then
      .ok { a with src := some .fragment }
    else .ok a
  else if strstr buffer version then
    do
      let _ ← a.deref
      let t ← strcpyT 512 buffer
      pure (a.assign t)
  else
    do
      let t ← a.deref
      let t ← strcatT 512 t buffer
      pure (a.assign t)

/-- The lines successive `fgets(buffer, 512, fp)` calls deliver, for a bounded
number of calls. -/
def readLines : Nat → List Char → List (List Char)
  | 0, _ => []
  | k + 1, fp =>
    match fgets 512 fp with
    | none => []
    | some (buffer, rest) => buffer :: readLines k rest

/-- All the lines `parseShader` reads from a file. -/
def fileLines (fp : List Char) : List (List Char) := readLines fp.length fp

/-- A file made of the given lines, each followed by a newline. -/
def fileOf : List (List Char) → List Char
  | [] => []
  | l :: ls => l ++ NL :: fileOf ls

/-! ## Vocabulary for the statements -/

/-- The array of a struct that a target names. -/
def ShaderSource.field (s : ShaderSource) : Target → CharArray 512
  | .vertex => s.VertexShader
  | .fragment => s.FragmentShader

/-- The other one of the two arrays. -/
def Target.other : Target → Target
  | .vertex => .fragment
  | .fragment => .vertex

/-- The error values the specification gives its `parse`. -/
inductive ParseError where
  | EmptySource
  | NoActiveSection
  | UnknownSectionKind
  | IoFailure
  deriving DecidableEq, Repr

/-- A call of `parseShader` in the vocabulary of the specification's
`Result`. The return type of the C function is `struct ShaderSource`: a call
that returns hands back a source set, given here by its two texts, and a call
that leaves defined behaviour hands back nothing at all. -/
def parseResult (r : Except Fault ShaderSource) :
    Option (Except ParseError (Option (List Char) × Option (List Char))) :=
  match r with
  | .ok s => some (.ok s.texts)
  | .error _ => none

/-- Two arrays that hold no NUL, as a sample of what `tmp` may hold on entry. -/
def garbage : ShaderSource := ⟨CharArray.fill 512 'x', CharArray.fill 512 'y'⟩

/-- An array that holds the given character and then only NULs. -/
def CharArray.single (c : Char) : CharArray 512 :=
  ⟨c :: List.replicate 511 NUL, by rw [List.length_cons, List.length_replicate]⟩

/-- Whether, in a sequence of lines, each of the two sections takes its text
from a "#version" line first: no line is written while no section is current,
no content line is appended to a section that has had no "#version" line yet,
and in the end both sections have had one. The arguments are the lines, the
current section, and whether the vertex and the fragment section have had
their "#version" line. -/
def versionFirst : List (List Char) → Option Target → Bool → Bool → Bool
  | [], _, vset, fset => vset && fset
  | buffer :: rest, cur, vset, fset =>
    if strstr buffer divider then
      if strstr buffer v then versionFirst rest (some .vertex) vset fset
      else if strstr buffer f then versionFirst rest (some .fragment) vset fset
      else versionFirst rest cur vset fset
    else if strstr buffer version then
      match cur with
      | none => false
      | some .vertex => versionFirst rest cur true fset
      | some .fragment => versionFirst rest cur vset true
    else
      match cur with
      | none => false
      | some .vertex => vset && versionFirst rest cur vset fset
      | some .fragment => fset && versionFirst rest cur vset fset

/-- Constants of `GL/glew.h`. -/
def GL_FALSE : Nat := 0
def GL_FRAGMENT_SHADER : Nat := 0x8B30
def GL_VERTEX_SHADER : Nat := 0x8B31
def GL_COMPILE_STATUS : Nat := 0x8B81
def GL_INFO_LOG_LENGTH : Nat := 0x8B84

/-- A shader object: its name (the handle), stage, source, compile status,
information log, whether it is flagged for deletion, and the names of the
programs it is attached to. -/
structure ShaderObject where
  name : Nat
  type : Nat
  source : List Char
  compiled : Bool
  infoLog : List Char
  deleteStatus : Bool
  attachedTo : List Nat
  deriving DecidableEq, Repr

/-- A program object: its name, the names of the attached shaders, link and
validation status. -/
structure ProgramObject where
  name : Nat
  attached : List Nat
  linked : Bool
  validated : Bool
  deriving DecidableEq, Repr

/-- One call into the backend, with its arguments (and its result, for the
two calls that create an object). -/
inductive Call where
  | glCreateProgram (result : Nat)
  | glCreateShader (type result : Nat)
  | glShaderSource (shader : Nat) (source : List Char)
  | glCompileShader (shader : Nat)
  | glGetShaderiv (shader pname : Nat)
  | glGetShaderInfoLog (shader maxLength : Nat)
  | glDeleteShader (shader : Nat)
  | glAttachShader (program shader : Nat)
  | glLinkProgram (program : Nat)
  | glValidateProgram (program : Nat)
  deriving DecidableEq, Repr

/-- The backend and the standard output of the process. `shaders` holds the
shader objects that exist, those flagged for deletion included. `calls` is
the record of the calls made so far, oldest first. -/
structure World where
  shaders : List ShaderObject
  programs : List ProgramObject
  calls : List Call
  stdout : List (List Char)
  deriving DecidableEq, Repr

/-- The names in use. -/
def World.names (w : World) : List Nat :=
  w.shaders.map (fun s => s.name) ++ w.programs.map (fun p => p.name)

/-- The choices of the driver. A new object gets a name that is not zero and
not in use. -/
structure Driver where
  newName : List Nat → Nat
  compile : Nat → List Char → Bool × List Char
  link : List ShaderObject → Bool
  validate : List ShaderObject → Bool
  newName_ne_zero : ∀ used, newName used ≠ 0
  newName_not_mem : ∀ used, newName used ∉ used

/-- Append a call to the record. -/
def World.record (w : World) (c : Call) : World :=
  { w with calls := w.calls ++ [c] }

/-- The shader object of a given name, if there is one; 0 names no object. -/
def World.findShader (w : World) (shader : Nat) : Option ShaderObject :=
  if shader = 0 then none else w.shaders.find? (fun s => s.name = shader)

/-- The program object of a given name, if there is one; 0 names no object. -/
def World.findProgram (w : World) (program : Nat) : Option ProgramObject :=
  if program = 0 then none else w.programs.find? (fun p => p.name = program)

/-- Change the shader object of a given name. -/
def World.modifyShader (w : World) (shader : Nat) (g : ShaderObject → ShaderObject) :
    World :=
  { w with shaders := w.shaders.map (fun s => if s.name = shader then g s else s) }

/-- Change the program object of a given name. -/
def World.modifyProgram (w : World) (program : Nat)
    (g : ProgramObject → ProgramObject) : World :=
  { w with programs := w.programs.map (fun p => if p.name = program then g p else p) }

/-- The shader objects behind a list of names. -/
def World.objects (w : World) (names : List Nat) : List ShaderObject :=
  names.filterMap w.findShader

/-- The call `glCreateProgram()`: a new program object under a fresh name. -/
def glCreateProgram (d : Driver) (w : World) : Nat × World :=
  let name := d.newName w.names
  (name, { w with programs := w.programs ++ [ProgramObject.mk name [] false false] }.record
    (.glCreateProgram name))

/-- The call `glCreateShader(type)`: a new shader object under a fresh name. -/
def glCreateShader (d : Driver) (type : Nat) (w : World) : Nat × World :=
  let name := d.newName w.names
  (name, { w with shaders := w.shaders ++ [ShaderObject.mk name type [] false [] false []] }.record
    (.glCreateShader type name))

/-- The call `glShaderSource(shader, 1, &source, NULL)`. -/
def glShaderSource (shader : Nat) (source : List Char) (w : World) : World :=
  (w.modifyShader shader (fun s => { s with source := source })).record
    (.glShaderSource shader source)

/-- The call `glCompileShader(shader)`: the driver decides status and log. -/
def glCompileShader (d : Driver) (shader : Nat) (w : World) : World :=
  (w.modifyShader shader (fun s =>
    { s with compiled := (d.compile s.type s.source).1,
             infoLog := (d.compile s.type s.source).2 })).record (.glCompileShader shader)

/-- The value `glGetShaderiv(shader, pname, &x)` stores in `x`; nothing is
stored when `shader` names no shader object. The log length counts the
terminator and is zero for an empty log. -/
def glGetShaderiv (shader pname : Nat) (w : World) : Option Nat × World :=
  (match w.findShader shader with
    | none => none
    | some s =>
      if pname = GL_COMPILE_STATUS then some (if s.compiled then 1 else 0)
      else if pname = GL_INFO_LOG_LENGTH then
        some (if s.infoLog = [] then 0 else s.infoLog.length + 1)
      else none,
   w.record (.glGetShaderiv shader pname))

/-- The text `glGetShaderInfoLog(shader, maxLength, &len, message)` stores in
`message`: at most `maxLength - 1` characters of the log. -/
def glGetShaderInfoLog (shader maxLength : Nat) (w : World) : List Char × World :=
  (match w.findShader shader with
    | none => []
    | some s => s.infoLog.take (maxLength - 1),
   w.record (.glGetShaderInfoLog shader maxLength))

/-- The call `glDeleteShader(shader)`. The value 0 is silently ignored, and so
is a name that is no shader object. A shader object that is attached to no
program is destroyed; one that is attached to a program is only flagged for
deletion and stays until it is detached. -/
def glDeleteShader (shader : Nat) (w : World) : World :=
  (if shader = 0 then w
    else
      match w.findShader shader with
      | none => w
      | some s =>
        if s.attachedTo = [] then
          { w with shaders := w.shaders.filter (fun s => s.name ≠ shader) }
        else w.modifyShader shader (fun s => { s with deleteStatus := true })).record
    (.glDeleteShader shader)

/-- The call `glAttachShader(program, shader)`; without effect when one of
the two names no object or the shader is attached to the program already. -/
def glAttachShader (program shader : Nat) (w : World) : World :=
  (match w.findShader shader, w.findProgram program with
    | some _, some p =>
      if shader ∈ p.attached then w
      else
        (w.modifyProgram program (fun p => { p with attached := p.attached ++ [shader] })
          ).modifyShader shader (fun s => { s with attachedTo := s.attachedTo ++ [program] })
    | _, _ => w).record (.glAttachShader program shader)

/-- The call `glLinkProgram(program)`: the driver decides the status. -/
def glLinkProgram (d : Driver) (program : Nat) (w : World) : World :=
  (w.modifyProgram program (fun p =>
    { p with linked := d.link (w.objects p.attached) })).record (.glLinkProgram program)

/-- The call `glValidateProgram(program)`: the driver decides the status. -/
def glValidateProgram (d : Driver) (program : Nat) (w : World) : World :=
  (w.modifyProgram program (fun p =>
    { p with validated := d.validate (w.objects p.attached) })).record
    (.glValidateProgram program)

/-- The call `printf(...)` with the text it prints. -/
def printf (text : List Char) (w : World) : World :=
  { w with stdout := w.stdout ++ [text] }

/-- The function `compileShader`. -/
def compileShader (d : Driver) (type : Nat) (source : List Char) (w : World) :
    Except Fault (Nat × World) :=
  let (id, w) := glCreateShader d type w
  let w := glShaderSource id source w
  let w := glCompileShader d id w
  match glGetShaderiv id GL_COMPILE_STATUS w with
  | (none, _) => .error .uninitialised
  | (some result, w) =>
    if result = GL_FALSE then
      match glGetShaderiv id GL_INFO_LOG_LENGTH w with
      | (none, _) => .error .uninitialised
      | (some len, w) =>
        if len = 0 then .error .zeroSizeArray
        else
          let (message, w) := glGetShaderInfoLog id len w
          let w := printf (message ++ "\n".toList) w
          let w := printf ("FILE: ".toList ++
            (if type = GL_VERTEX_SHADER then "vertex".toList else "fragment".toList) ++
            "\n".toList) w
          let w := glDeleteShader id w
          .ok (0, w)
    else .ok (id, w)

/-- The function `createShader`. -/
def createShader (d : Driver) (vertexShader fragmentShader : List Char) (w : World) :
    Except Fault (Nat × World) :=
  let (program, w) := glCreateProgram d w
  match compileShader d GL_VERTEX_SHADER vertexShader w with
  | .error e => .error e
  | .ok (vs, w) =>
    match compileShader d GL_FRAGMENT_SHADER fragmentShader w with
    | .error e => .error e
    | .ok (fs, w) =>
      let w := glAttachShader program vs w
      let w := glAttachShader program fs w
      let w := glLinkProgram d program w
      let w := glValidateProgram d program w
      let w := glDeleteShader vs w
      let w := glDeleteShader fs w
      .ok (program, w)

/-- The shader handles a sequence of calls created. -/
def createdShaders : List Call → List Nat
  | [] => []
  | .glCreateShader _ result :: cs => result :: createdShaders cs
  | _ :: cs => createdShaders cs

/-- The shader handles a sequence of calls handed to `glDeleteShader`, one
entry per call, the ignored value 0 left out. -/
def deletedShaders : List Call → List Nat
  | [] => []
  | .glDeleteShader shader :: cs =>
    if shader = 0 then deletedShaders cs else shader :: deletedShaders cs
  | _ :: cs => deletedShaders cs

/-- A driver for the examples: a new name is one more than the sum of the
names in use, a source compiles when it contains a semicolon, every program
links and validates. -/
def sampleDriver : Driver where
  newName used := used.sum + 1
  compile _ source :=
    if strstr source ";".toList then (true, []) else (false, "syntax error".toList)
  link _ := true
  validate _ := true
  newName_ne_zero _ := Nat.succ_ne_zero _
  newName_not_mem used h := by
    have h2 : used.sum + 1 ≤ used.sum := List.single_le_sum (fun x _ => Nat.zero_le x) _ h
    omega

/-- A backend with nothing in it. -/
def emptyWorld : World := ⟨[], [], [], []⟩

/-! ## Facts about the embedding -/

theorem nul_not_mem_cstr (a : List Char) : NUL ∉ cstr a := by
  intro h
  have := List.mem_takeWhile_imp h
  simp at this

theorem cstr_eq_self {s : List Char} (hs : NUL ∉ s) : cstr s = s := by
  unfold cstr
  rw [List.takeWhile_eq_self_iff]
  intro c hc
  simp only [bne_iff_ne, ne_eq]
  rintro rfl
  exact hs hc

theorem cstr_append_nul (s r : List Char) (hs : NUL ∉ s) :
    cstr (s ++ NUL :: r) = s := by
  induction s with
  | nil => simp [cstr]
  | cons c s ih =>
    have hc : c ≠ NUL := fun h => hs (by simp [h])
    have hs2 : NUL ∉ s := fun h => hs (List.mem_cons_of_mem _ h)
    have := ih hs2
    simp only [cstr] at this ⊢
    simp [List.takeWhile_cons, hc, this]

theorem take_length_cstr (a : List Char) : a.take (cstr a).length = cstr a := by
  induction a with
  | nil => simp [cstr]
  | cons c a ih =>
    simp only [cstr] at ih ⊢
    by_cases hc : c = NUL
    · simp [List.takeWhile_cons, hc]
    · simp [List.takeWhile_cons, hc, ih]

theorem length_cstr_le (a : List Char) : (cstr a).length ≤ a.length := by
  unfold cstr
  exact (List.takeWhile_sublist _).length_le

theorem CharArray.text_eq_some {n : Nat} {a : CharArray n} {t : List Char}
    (h : a.text = some t) : NUL ∈ a.data ∧ cstr a.data = t := by
  unfold CharArray.text at h
  split at h
  · exact ⟨by assumption, by simpa using h⟩
  · simp at h

theorem CharArray.text_eq_none {n : Nat} {a : CharArray n}
    (h : a.text = none) : NUL ∉ a.data := by
  unfold CharArray.text at h
  split at h
  · simp at h
  · assumption

theorem text_of_data {n : Nat} (a : CharArray n) (s r : List Char)
    (hs : NUL ∉ s) (h : a.data = s ++ NUL :: r) : a.text = some s := by
  unfold CharArray.text
  rw [h, cstr_append_nul s r hs]
  simp

theorem strcpy_ok {n : Nat} (dst : CharArray n) (b : List Char)
    (h : (cstr b).length + 1 ≤ n) :
    ∃ d, strcpy dst b = .ok d ∧ d.text = some (cstr b) := by
  have h2 : 0 + (cstr b ++ [NUL]).length ≤ n := by simpa using h
  refine ⟨_, by rw [strcpy, dif_pos h2], ?_⟩
  apply text_of_data _ (cstr b) (dst.data.drop (0 + (cstr b ++ [NUL]).length))
    (nul_not_mem_cstr b)
  simp [writeAt]

theorem strcpy_overflow {n : Nat} (dst : CharArray n) (b : List Char)
    (h : ¬ (cstr b).length + 1 ≤ n) : strcpy dst b = .error .overflow := by
  have h2 : ¬ 0 + (cstr b ++ [NUL]).length ≤ n := by simpa using h
  rw [strcpy, dif_neg h2]

theorem strcat_ok {n : Nat} (dst : CharArray n) (b t : List Char)
    (ht : dst.text = some t) (h : t.length + ((cstr b).length + 1) ≤ n) :
    ∃ d, strcat dst b = .ok d ∧ d.text = some (t ++ cstr b) := by
  obtain ⟨hmem, hc⟩ := CharArray.text_eq_some ht
  have h2 : (cstr dst.data).length + (cstr b ++ [NUL]).length ≤ n := by
    rw [hc]; simpa using h
  refine ⟨_, by rw [strcat, if_pos hmem, dif_pos h2], ?_⟩
  apply text_of_data _ (t ++ cstr b)
    (dst.data.drop ((cstr dst.data).length + (cstr b ++ [NUL]).length))
  · intro hm
    rcases List.mem_append.1 hm with hm | hm
    · rw [← hc] at hm; exact nul_not_mem_cstr _ hm
    · exact nul_not_mem_cstr _ hm
  · have htk := take_length_cstr dst.data
    rw [hc] at htk
    simp [writeAt, hc, htk]

theorem strcat_overflow {n : Nat} (dst : CharArray n) (b t : List Char)
    (ht : dst.text = some t) (h : ¬ t.length + ((cstr b).length + 1) ≤ n) :
    strcat dst b = .error .overflow := by
  obtain ⟨hmem, hc⟩ := CharArray.text_eq_some ht
  have h2 : ¬ (cstr dst.data).length + (cstr b ++ [NUL]).length ≤ n := by
    rw [hc]; simpa using h
  rw [strcat, if_pos hmem, dif_neg h2]

theorem strcat_unterminated {n : Nat} (dst : CharArray n) (b : List Char)
    (ht : dst.text = none) : strcat dst b = .error .unterminated := by
  rw [strcat, if_neg (CharArray.text_eq_none ht)]

theorem strcpy_text {n : Nat} (dst : CharArray n) (b : List Char) :
    (strcpy dst b).map (fun d => d.text) = (strcpyT n b).map some := by
  by_cases h : (cstr b).length + 1 ≤ n
  · obtain ⟨d, hd, ht⟩ := strcpy_ok dst b h
    simp [hd, ht, strcpyT, h, Except.map]
  · simp [strcpy_overflow dst b h, strcpyT, h, Except.map]

theorem strcat_text {n : Nat} (dst : CharArray n) (b : List Char) :
    (strcat dst b).map (fun d => d.text) = (strcatT n dst.text b).map some := by
  cases ht : dst.text with
  | none => simp [strcat_unterminated dst b ht, strcatT, Except.map]
  | some t =>
    by_cases h : t.length + ((cstr b).length + 1) ≤ n
    · obtain ⟨d, hd, hdt⟩ := strcat_ok dst b t ht h
      simp [hd, hdt, strcatT, h, Except.map]
    · simp [strcat_overflow dst b t ht h, strcatT, h, Except.map]

theorem parseLine_view (st : ParseState) (b : List Char) :
    (parseLine st b).map ParseState.view = parseLineT st.view b := by
  obtain ⟨⟨va, fa⟩, src⟩ := st
  unfold parseLine parseLineT
  by_cases h1 : strstr b divider = true
  · simp only [h1, if_true]
    by_cases h2 : strstr b v = true
    · simp [h2, Except.map, ParseState.view]
    · by_cases h3 : strstr b f = true
      · simp [h2, h3, Except.map, ParseState.view]
      · simp [h2, h3, Except.map, ParseState.view]
  · simp only [h1, Bool.false_eq_true, if_false]
    by_cases h2 : strstr b version = true
    · simp only [h2, if_true]
      rcases src with _ | _ | _
      · simp [ParseState.deref, TextState.deref, ParseState.view, Except.map, bind,
          Except.bind]
      · have := strcpy_text va b
        cases h : strcpy va b <;> cases h' : strcpyT 512 b <;>
          simp [h, h', Except.map] at this <;>
          simp [ParseState.deref, TextState.deref, ParseState.view, Except.map, bind,
            Except.bind, h, h', pure, Except.pure, ParseState.assign, TextState.assign, this]
      · have := strcpy_text fa b
        cases h : strcpy fa b <;> cases h' : strcpyT 512 b <;>
          simp [h, h', Except.map] at this <;>
          simp [ParseState.deref, TextState.deref, ParseState.view, Except.map, bind,
            Except.bind, h, h', pure, Except.pure, ParseState.assign, TextState.assign, this]
    · simp only [h2, Bool.false_eq_true, if_false]
      rcases src with _ | _ | _
      · simp [ParseState.deref, TextState.deref, ParseState.view, Except.map, bind,
          Except.bind]
      · have := strcat_text va b
        cases h : strcat va b <;> cases h' : strcatT 512 va.text b <;>
          simp [h, h', Except.map] at this <;>
          simp [ParseState.deref, TextState.deref, ParseState.view, Except.map, bind,
            Except.bind, h, h', pure, Except.pure, ParseState.assign, TextState.assign, this]
      · have := strcat_text fa b
        cases h : strcat fa b <;> cases h' : strcatT 512 fa.text b <;>
          simp [h, h', Except.map] at this <;>
          simp [ParseState.deref, TextState.deref, ParseState.view, Except.map, bind,
            Except.bind, h, h', pure, Except.pure, ParseState.assign, TextState.assign, this]

theorem foldlM_view (ls : List (List Char)) (st : ParseState) :
    (ls.foldlM parseLine st).map ParseState.view = ls.foldlM parseLineT st.view := by
  induction ls generalizing st with
  | nil => simp [Except.map, pure, Except.pure]
  | cons l ls ih =>
    have h := parseLine_view st l
    simp only [List.foldlM_cons]
    cases h1 : parseLine st l with
    | error e =>
      rw [h1] at h
      simp [Except.map] at h
      simp [← h, bind, Except.bind, Except.map]
    | ok st1 =>
      rw [h1] at h
      simp [Except.map] at h
      simp only [← h, bind, Except.bind]
      exact ih st1

theorem fgetsAux_rest_le (k : Nat) (s : List Char) :
    (fgetsAux k s).2.length ≤ s.length := by
  induction k generalizing s with
  | zero => simp [fgetsAux]
  | succ k ih =>
    cases s with
    | nil => simp [fgetsAux]
    | cons c s =>
      simp only [fgetsAux]
      split
      · simp
      · have := ih s
        simp only [List.length_cons]
        omega

theorem fgetsAux_length_le (k : Nat) (s : List Char) :
    (fgetsAux k s).1.length ≤ k := by
  induction k generalizing s with
  | zero => simp [fgetsAux]
  | succ k ih =>
    cases s with
    | nil => simp [fgetsAux]
    | cons c s =>
      simp only [fgetsAux]
      split
      · simp
      · have := ih s
        simp only [List.length_cons]
        omega

theorem fgets_rest_lt {fp b r : List Char} (h : fgets 512 fp = some (b, r)) :
    r.length < fp.length := by
  cases fp with
  | nil => simp [fgets] at h
  | cons c s =>
    simp only [fgets, Option.some.injEq] at h
    have h2 : r = (fgetsAux (510 + 1) (c :: s)).2 := by rw [h]
    rw [h2]
    simp only [fgetsAux]
    split
    · simp
    · have := fgetsAux_rest_le 510 s
      simp only [List.length_cons]
      omega

/-- Every line `fgets(buffer, 512, fp)` delivers has at most 511 characters. -/
theorem fgets_length_le {fp b r : List Char} (h : fgets 512 fp = some (b, r)) :
    b.length ≤ 511 := by
  cases fp with
  | nil => simp [fgets] at h
  | cons c s =>
    simp only [fgets, Option.some.injEq] at h
    have h2 : b = (fgetsAux 511 (c :: s)).1 := by rw [h]
    rw [h2]
    exact fgetsAux_length_le 511 _

theorem readLines_fuel (k1 k2 : Nat) (fp : List Char) (h1 : fp.length ≤ k1)
    (h2 : fp.length ≤ k2) : readLines k1 fp = readLines k2 fp := by
  induction k1 generalizing k2 fp with
  | zero =>
    have : fp = [] := List.length_eq_zero.1 (by omega)
    subst this
    cases k2 <;> simp [readLines, fgets]
  | succ k1 ih =>
    cases k2 with
    | zero =>
      have : fp = [] := List.length_eq_zero.1 (by omega)
      subst this
      simp [readLines, fgets]
    | succ k2 =>
      simp only [readLines]
      cases h : fgets 512 fp with
      | none => rfl
      | some p =>
        obtain ⟨b, r⟩ := p
        have := fgets_rest_lt h
        simp only
        rw [ih k2 r (by omega) (by omega)]

theorem fileLines_cons {fp b r : List Char} (h : fgets 512 fp = some (b, r)) :
    fileLines fp = b :: fileLines r := by
  have hlt := fgets_rest_lt h
  unfold fileLines
  obtain ⟨k, hk⟩ : ∃ k, fp.length = k + 1 := ⟨fp.length - 1, by omega⟩
  rw [hk]
  simp only [readLines, h]
  rw [readLines_fuel k r.length r (by omega) (le_refl _)]

theorem fileLines_of_none {fp : List Char} (h : fgets 512 fp = none) :
    fileLines fp = [] := by
  cases fp with
  | nil => rfl
  | cons c s => simp [fgets] at h

theorem parseLoop_eq_foldlM (fuel : Nat) (fp : List Char) (st : ParseState)
    (h : fp.length < fuel) :
    parseLoop fuel fp st = (fileLines fp).foldlM parseLine st := by
  induction fuel generalizing fp st with
  | zero => omega
  | succ fuel ih =>
    simp only [parseLoop]
    cases hf : fgets 512 fp with
    | none => simp [fileLines_of_none hf, pure, Except.pure]
    | some p =>
      obtain ⟨b, r⟩ := p
      have hlt := fgets_rest_lt hf
      rw [fileLines_cons hf]
      simp only [List.foldlM_cons]
      cases hp : parseLine st b with
      | error e => simp [bind, Except.bind]
      | ok st1 =>
        simp only [bind, Except.bind]
        exact ih r st1 (by omega)

/-- `parseShader` is the loop body folded over the lines of the file: the
iteration bound is never reached. -/
theorem parseShader_eq_foldlM (tmp : ShaderSource) (fp : List Char) :
    parseShader tmp (some fp) =
      ((fileLines fp).foldlM parseLine ⟨tmp, none⟩).map (fun st => st.tmp) := by
  simp only [parseShader]
  rw [parseLoop_eq_foldlM _ _ _ (Nat.lt_succ_self _)]
  cases (fileLines fp).foldlM parseLine ⟨tmp, none⟩ <;> simp [Except.map]

/-- The texts `parseShader` returns are those of the text-level run. -/
theorem parseShader_texts (tmp : ShaderSource) (fp : List Char) :
    (parseShader tmp (some fp)).map ShaderSource.texts =
      ((fileLines fp).foldlM parseLineT
          ⟨none, tmp.VertexShader.text, tmp.FragmentShader.text⟩).map
        (fun a => (a.vtext, a.ftext)) := by
  rw [parseShader_eq_foldlM]
  have h := foldlM_view (fileLines fp) ⟨tmp, none⟩
  simp only [ParseState.view] at h
  rw [← h]
  cases (fileLines fp).foldlM parseLine ⟨tmp, none⟩ <;>
    simp [Except.map, ShaderSource.texts, ParseState.view]

/-! ### Substring search across line boundaries -/

theorem startsWith_append_sep (a b p : List Char) (c : Char) (hc : c ∉ p) :
    startsWith (a ++ c :: b) p = startsWith a p := by
  induction a generalizing p with
  | nil =>
    cases p with
    | nil => simp [startsWith]
    | cons n ns =>
      have : c ≠ n := fun h => hc (by simp [h])
      simp [startsWith, this]
  | cons h t ih =>
    cases p with
    | nil => simp [startsWith]
    | cons n ns =>
      have hns : c ∉ ns := fun h => hc (List.mem_cons_of_mem _ h)
      simp [startsWith, ih ns hns]

theorem occursIn_nil {p : List Char} (hp : p ≠ []) : occursIn [] p = false := by
  cases p with
  | nil => exact absurd rfl hp
  | cons n ns => simp [occursIn, startsWith]

theorem occursIn_append_sep (a b p : List Char) (c : Char) (hc : c ∉ p)
    (hp : p ≠ []) :
    occursIn (a ++ c :: b) p = (occursIn a p || occursIn b p) := by
  induction a with
  | nil =>
    have h1 := startsWith_append_sep [] b p c hc
    simp only [List.nil_append] at h1
    cases p with
    | nil => exact absurd rfl hp
    | cons n ns =>
      have hcn : c ≠ n := fun h => hc (by simp [h])
      simp [occursIn, startsWith, hcn]
  | cons h t ih =>
    have h1 := startsWith_append_sep (h :: t) b p c hc
    simp only [List.cons_append] at h1 ih ⊢
    simp [occursIn, h1, ih, Bool.or_assoc]

theorem occursIn_append_singleton (a p : List Char) (c : Char) (hc : c ∉ p)
    (hp : p ≠ []) : occursIn (a ++ [c]) p = occursIn a p := by
  rw [occursIn_append_sep a [] p c hc hp, occursIn_nil hp, Bool.or_false]

theorem NL_ne_NUL : NL ≠ NUL := by decide

theorem cstr_line {l : List Char} (h : NUL ∉ l) : cstr (l ++ [NL]) = l ++ [NL] :=
  cstr_eq_self (by
    intro hm
    rcases List.mem_append.1 hm with hm | hm
    · exact h hm
    · have h2 : NUL = NL := by simpa using hm
      exact NL_ne_NUL h2.symm)

theorem strstr_line_divider {l : List Char} (h : NUL ∉ l) :
    strstr (l ++ [NL]) divider = strstr l divider := by
  unfold strstr
  rw [cstr_line h, cstr_eq_self h]
  exact occursIn_append_singleton l _ NL (by decide) (by decide)

theorem strstr_line_version {l : List Char} (h : NUL ∉ l) :
    strstr (l ++ [NL]) version = strstr l version := by
  unfold strstr
  rw [cstr_line h, cstr_eq_self h]
  exact occursIn_append_singleton l _ NL (by decide) (by decide)

/-! ### One line of the loop -/

theorem parseLine_version {st : ParseState} {K : Target} {buffer : List Char}
    (hcur : st.src = some K) (hv : strstr buffer version = true)
    (hd : strstr buffer divider = false) (hlen : (cstr buffer).length + 1 ≤ 512) :
    ∃ st', parseLine st buffer = .ok st' ∧ st'.src = some K ∧
      (st'.tmp.field K).text = some (cstr buffer) ∧
      st'.tmp.field K.other = st.tmp.field K.other := by
  obtain ⟨⟨va, fa⟩, src⟩ := st
  simp only at hcur
  subst hcur
  cases K with
  | vertex =>
    obtain ⟨d, hd1, hd2⟩ := strcpy_ok va buffer hlen
    exact ⟨⟨⟨d, fa⟩, some .vertex⟩, by
      simp [parseLine, hd, hv, ParseState.deref, hd1, bind, Except.bind, pure, Except.pure,
        ParseState.assign], rfl, hd2, rfl⟩
  | fragment =>
    obtain ⟨d, hd1, hd2⟩ := strcpy_ok fa buffer hlen
    exact ⟨⟨⟨va, d⟩, some .fragment⟩, by
      simp [parseLine, hd, hv, ParseState.deref, hd1, bind, Except.bind, pure, Except.pure,
        ParseState.assign], rfl, hd2, rfl⟩

/-- A line that is no section marker, read before anything was assigned to
`src`, is written through the unassigned pointer. -/
theorem parseLine_wild (tmp : ShaderSource) {buffer : List Char}
    (hd : strstr buffer divider = false) :
    parseLine ⟨tmp, none⟩ buffer = .error .wildPointer := by
  by_cases hv : strstr buffer version = true
  · simp [parseLine, hd, hv, ParseState.deref, bind, Except.bind]
  · simp [parseLine, hd, hv, ParseState.deref, bind, Except.bind]

/-! ### The lines that follow a marker -/

theorem foldlM_agree (ls : List (List Char)) (a1 a2 : TextState) (vset fset : Bool)
    (hsrc : a1.src = a2.src) (hv : vset = true → a1.vtext = a2.vtext)
    (hf : fset = true → a1.ftext = a2.ftext)
    (h : versionFirst ls a1.src vset fset = true) :
    (ls.foldlM parseLineT a1).map (fun a => (a.vtext, a.ftext)) =
      (ls.foldlM parseLineT a2).map (fun a => (a.vtext, a.ftext)) := by
  induction ls generalizing a1 a2 vset fset with
  | nil =>
    simp only [versionFirst, Bool.and_eq_true] at h
    simp [pure, Except.pure, Except.map, hv h.1, hf h.2]
  | cons b ls ih =>
    obtain ⟨s1, v1, f1⟩ := a1
    obtain ⟨s2, v2, f2⟩ := a2
    simp only at hsrc hv hf h
    subst hsrc
    simp only [List.foldlM_cons, parseLineT]
    unfold versionFirst at h
    by_cases h1 : strstr b divider = true
    · simp only [h1, if_true] at h ⊢
      by_cases h2 : strstr b v = true
      · simp only [h2, if_true] at h ⊢
        exact ih ⟨some .vertex, v1, f1⟩ ⟨some .vertex, v2, f2⟩ vset fset rfl hv hf h
      · simp only [h2, Bool.false_eq_true, if_false] at h ⊢
        by_cases h3 : strstr b f = true
        · simp only [h3, if_true] at h ⊢
          exact ih ⟨some .fragment, v1, f1⟩ ⟨some .fragment, v2, f2⟩ vset fset rfl hv hf h
        · simp only [h3, Bool.false_eq_true, if_false] at h ⊢
          exact ih ⟨s1, v1, f1⟩ ⟨s1, v2, f2⟩ vset fset rfl hv hf h
    · simp only [h1, Bool.false_eq_true, if_false] at h ⊢
      by_cases h2 : strstr b version = true
      · simp only [h2, if_true] at h ⊢
        rcases s1 with _ | _ | _
        · simp at h
        · simp only [TextState.deref, bind, Except.bind]
          cases hc : strcpyT 512 b with
          | error e => simp [Except.map]
          | ok t =>
            exact ih ⟨some .vertex, some t, f1⟩ ⟨some .vertex, some t, f2⟩ true fset rfl
              (fun _ => rfl) hf h
        · simp only [TextState.deref, bind, Except.bind]
          cases hc : strcpyT 512 b with
          | error e => simp [Except.map]
          | ok t =>
            exact ih ⟨some .fragment, v1, some t⟩ ⟨some .fragment, v2, some t⟩ vset true rfl
              hv (fun _ => rfl) h
      · simp only [h2, Bool.false_eq_true, if_false] at h ⊢
        rcases s1 with _ | _ | _
        · simp at h
        · simp only [Bool.and_eq_true] at h
          have hvv := hv h.1
          subst hvv
          simp only [TextState.deref, bind, Except.bind]
          cases hc : strcatT 512 v1 b with
          | error e => simp [Except.map]
          | ok t =>
            exact ih ⟨some .vertex, some t, f1⟩ ⟨some .vertex, some t, f2⟩ vset fset rfl
              (fun _ => rfl) hf h.2
        · simp only [Bool.and_eq_true] at h
          have hff := hf h.1
          subst hff
          simp only [TextState.deref, bind, Except.bind]
          cases hc : strcatT 512 f1 b with
          | error e => simp [Except.map]
          | ok t =>
            exact ih ⟨some .fragment, v1, some t⟩ ⟨some .fragment, v2, some t⟩ vset fset rfl
              hv (fun _ => rfl) h.2

/-! ### Files made of terminated lines -/

theorem fgetsAux_line (k : Nat) (l rest : List Char) (hNL : NL ∉ l)
    (hlen : l.length < k) : fgetsAux k (l ++ NL :: rest) = (l ++ [NL], rest) := by
  induction l generalizing k with
  | nil =>
    obtain ⟨k, rfl⟩ : ∃ j, k = j + 1 := ⟨k - 1, by simp at hlen; omega⟩
    simp [fgetsAux]
  | cons c l ih =>
    obtain ⟨k, rfl⟩ : ∃ j, k = j + 1 := ⟨k - 1, by simp at hlen; omega⟩
    have hc : c ≠ NL := fun h => hNL (by simp [h])
    have hl : NL ∉ l := fun h => hNL (List.mem_cons_of_mem _ h)
    have := ih k hl (by simp at hlen; omega)
    simp [fgetsAux, hc, this]

theorem fgets_line (l rest : List Char) (hNL : NL ∉ l) (hlen : l.length ≤ 510) :
    fgets 512 (l ++ NL :: rest) = some (l ++ [NL], rest) := by
  have h := fgetsAux_line 511 l rest hNL (by omega)
  cases l with
  | nil => simpa [fgets] using h
  | cons c l => simpa [fgets] using h

theorem fileLines_fileOf (ls : List (List Char))
    (h : ∀ l ∈ ls, NL ∉ l ∧ l.length ≤ 510) :
    fileLines (fileOf ls) = ls.map (fun l => l ++ [NL]) := by
  induction ls with
  | nil => rfl
  | cons l ls ih =>
    have hl := h l (List.mem_cons_self _ _)
    simp only [fileOf, List.map_cons]
    rw [fileLines_cons (fgets_line l (fileOf ls) hl.1 hl.2),
      ih (fun x hx => h x (List.mem_cons_of_mem _ hx))]

theorem length_le_fileOf {ls : List (List Char)} {l : List Char} (h : l ∈ ls) :
    l.length + 1 ≤ (fileOf ls).length := by
  induction ls with
  | nil => cases h
  | cons x xs ih =>
    simp only [fileOf, List.length_append, List.length_cons]
    rcases List.mem_cons.1 h with rfl | h
    · omega
    · have := ih h
      omega

theorem nul_not_mem_fileOf (ls : List (List Char)) (h : ∀ l ∈ ls, NUL ∉ l) :
    NUL ∉ fileOf ls := by
  induction ls with
  | nil => simp [fileOf]
  | cons x xs ih =>
    simp only [fileOf, List.mem_append, List.mem_cons, not_or]
    exact ⟨h x (List.mem_cons_self _ _), fun e => NL_ne_NUL e.symm,
      ih (fun l hl => h l (List.mem_cons_of_mem _ hl))⟩

theorem occursIn_fileOf (ls : List (List Char)) (p : List Char) (hp : p ≠ [])
    (hNL : NL ∉ p) (h : ∀ l ∈ ls, occursIn l p = false) :
    occursIn (fileOf ls) p = false := by
  induction ls with
  | nil => exact occursIn_nil hp
  | cons x xs ih =>
    simp only [fileOf]
    rw [occursIn_append_sep x (fileOf xs) p NL hNL hp, h x (List.mem_cons_self _ _),
      ih (fun l hl => h l (List.mem_cons_of_mem _ hl))]
    rfl

/-- A text put together from lines that are free of "#shader" is free of
"#shader". -/
theorem strstr_fileOf_divider (ls : List (List Char))
    (h : ∀ l ∈ ls, NUL ∉ l ∧ strstr l divider = false) :
    strstr (fileOf ls) divider = false := by
  unfold strstr
  rw [cstr_eq_self (nul_not_mem_fileOf ls (fun l hl => (h l hl).1))]
  apply occursIn_fileOf _ _ (by decide) (by decide)
  intro l hl
  have := (h l hl).2
  unfold strstr at this
  rwa [cstr_eq_self (h l hl).1] at this

/-! ### The text-level run over a section -/

theorem TextState.assign_assign (a : TextState) (x y : List Char) :
    (a.assign x).assign y = a.assign y := by
  obtain ⟨s, va, fa⟩ := a
  rcases s with _ | _ | _ <;> rfl

theorem TextState.assign_of_deref {a : TextState} {t : List Char}
    (h : a.deref = .ok (some t)) : a.assign t = a := by
  obtain ⟨s, va, fa⟩ := a
  rcases s with _ | _ | _ <;> simp_all [TextState.deref, TextState.assign]

theorem TextState.deref_assign {a : TextState} {o : Option (List Char)}
    (h : a.deref = .ok o) (t : List Char) : (a.assign t).deref = .ok (some t) := by
  obtain ⟨s, va, fa⟩ := a
  rcases s with _ | _ | _ <;> simp_all [TextState.deref, TextState.assign]

theorem parseLineT_version {a : TextState} {o : Option (List Char)} {l : List Char}
    (hsrc : a.deref = .ok o) (hn : NUL ∉ l) (hv : strstr l version = true)
    (hd : strstr l divider = false) (hlen : l.length + 2 ≤ 512) :
    parseLineT a (l ++ [NL]) = .ok (a.assign (l ++ [NL])) := by
  have h1 : l.length ≤ 510 := by omega
  simp [parseLineT, strstr_line_divider hn, strstr_line_version hn, hd, hv, hsrc, strcpyT,
    h1, bind, Except.bind, pure, Except.pure, cstr_line hn]

theorem parseLineT_content {a : TextState} {t l : List Char}
    (hsrc : a.deref = .ok (some t)) (hn : NUL ∉ l) (hv : strstr l version = false)
    (hd : strstr l divider = false) (hlen : t.length + (l.length + 2) ≤ 512) :
    parseLineT a (l ++ [NL]) = .ok (a.assign (t ++ (l ++ [NL]))) := by
  have h1 : t.length + ((l ++ [NL]).length + 1) ≤ 512 := by simpa using hlen
  simp only [parseLineT, strstr_line_divider hn, strstr_line_version hn, hd, hv, hsrc,
    strcatT, bind, Except.bind, pure, Except.pure, Bool.false_eq_true, if_false,
    cstr_line hn, if_pos h1]

theorem foldlM_content (ls : List (List Char)) (a : TextState) (t : List Char)
    (hsrc : a.deref = .ok (some t))
    (hls : ∀ l ∈ ls, NUL ∉ l ∧ strstr l divider = false ∧ strstr l version = false)
    (hlen : t.length + (fileOf ls).length ≤ 511) :
    (ls.map (fun l => l ++ [NL])).foldlM parseLineT a = .ok (a.assign (t ++ fileOf ls)) := by
  induction ls generalizing a t with
  | nil =>
    simp [fileOf, pure, Except.pure, TextState.assign_of_deref hsrc]
  | cons l ls ih =>
    have hl := hls l (List.mem_cons_self _ _)
    simp only [fileOf, List.length_append, List.length_cons] at hlen
    simp only [List.map_cons, List.foldlM_cons]
    rw [parseLineT_content hsrc hl.1 hl.2.2 hl.2.1 (by omega)]
    simp only [bind, Except.bind]
    rw [ih (a.assign (t ++ (l ++ [NL]))) (t ++ (l ++ [NL]))
      (TextState.deref_assign hsrc _) (fun x hx => hls x (List.mem_cons_of_mem _ hx))
      (by simp only [List.length_append, List.length_cons, List.length_nil]; omega)]
    simp [TextState.assign_assign, fileOf]

/-- A section of the file format: a "#version" line and then content lines,
all written while some section is current and fitting in 511 bytes. -/
theorem foldlM_section (l0 : List Char) (ls : List (List Char)) (a : TextState)
    (o : Option (List Char)) (hsrc : a.deref = .ok o) (hn0 : NUL ∉ l0)
    (hv0 : strstr l0 version = true) (hd0 : strstr l0 divider = false)
    (hls : ∀ l ∈ ls, NUL ∉ l ∧ strstr l divider = false ∧ strstr l version = false)
    (hlen : (fileOf (l0 :: ls)).length ≤ 511) :
    ((l0 :: ls).map (fun l => l ++ [NL])).foldlM parseLineT a =
      .ok (a.assign (fileOf (l0 :: ls))) := by
  simp only [fileOf, List.length_append, List.length_cons] at hlen
  simp only [List.map_cons, List.foldlM_cons]
  rw [parseLineT_version hsrc hn0 hv0 hd0 (by omega)]
  simp only [bind, Except.bind]
  rw [foldlM_content ls _ (l0 ++ [NL]) (TextState.deref_assign hsrc _) hls
    (by simp only [List.length_append, List.length_cons, List.length_nil]; omega)]
  simp [TextState.assign_assign, fileOf]

theorem parseLineT_marker_vertex (a : TextState) :
    parseLineT a ("#shader vertex".toList ++ [NL]) = .ok ⟨some .vertex, a.vtext, a.ftext⟩ := by
  have h1 : strstr ("#shader vertex".toList ++ [NL]) divider = true := by decide
  have h2 : strstr ("#shader vertex".toList ++ [NL]) v = true := by decide
  unfold parseLineT
  rw [if_pos h1, if_pos h2]

theorem parseLineT_marker_fragment (a : TextState) :
    parseLineT a ("#shader fragment".toList ++ [NL]) =
      .ok ⟨some .fragment, a.vtext, a.ftext⟩ := by
  have h1 : strstr ("#shader fragment".toList ++ [NL]) divider = true := by decide
  have h2 : strstr ("#shader fragment".toList ++ [NL]) v = false := by decide
  have h3 : strstr ("#shader fragment".toList ++ [NL]) f = true := by decide
  unfold parseLineT
  rw [if_pos h1, if_neg (by rw [h2]; exact Bool.false_ne_true), if_pos h3]

/-- The text-level run over a file of the two-section format. -/
theorem foldlM_two_sections (a : TextState) (V0 F0 : List Char) (vs fs : List (List Char))
    (hn : ∀ l ∈ V0 :: F0 :: (vs ++ fs), NUL ∉ l)
    (hV0 : strstr V0 version = true ∧ strstr V0 divider = false)
    (hF0 : strstr F0 version = true ∧ strstr F0 divider = false)
    (hcontent : ∀ l ∈ vs ++ fs, strstr l divider = false ∧ strstr l version = false)
    (hvlen : (fileOf (V0 :: vs)).length ≤ 511)
    (hflen : (fileOf (F0 :: fs)).length ≤ 511) :
    ((("#shader vertex".toList :: V0 :: vs) ++
        ("#shader fragment".toList :: F0 :: fs)).map (fun l => l ++ [NL])).foldlM
        parseLineT a =
      .ok ⟨some .fragment, some (fileOf (V0 :: vs)), some (fileOf (F0 :: fs))⟩ := by
  have hvs : ∀ l ∈ vs, NUL ∉ l ∧ strstr l divider = false ∧ strstr l version = false :=
    fun l hl => ⟨hn l (by simp [hl]), hcontent l (by simp [hl])⟩
  have hfs : ∀ l ∈ fs, NUL ∉ l ∧ strstr l divider = false ∧ strstr l version = false :=
    fun l hl => ⟨hn l (by simp [hl]), hcontent l (by simp [hl])⟩
  rw [List.map_append, List.foldlM_append, List.map_cons, List.foldlM_cons,
    parseLineT_marker_vertex]
  simp only [bind, Except.bind]
  rw [foldlM_section V0 vs ⟨some .vertex, a.vtext, a.ftext⟩ a.vtext rfl (hn V0 (by simp))
    hV0.1 hV0.2 hvs hvlen]
  simp only [TextState.assign]
  rw [List.map_cons, List.foldlM_cons, parseLineT_marker_fragment]
  simp only [bind, Except.bind]
  rw [foldlM_section F0 fs ⟨some .fragment, _, a.ftext⟩ a.ftext rfl (hn F0 (by simp))
    hF0.1 hF0.2 hfs hflen]
  rfl

/-! ### Lines the loop passes over, and the iteration bound -/

theorem parseLine_unknown_kind (st : ParseState) {buffer : List Char}
    (hd : strstr buffer divider = true) (hv : strstr buffer v = false)
    (hf : strstr buffer f = false) : parseLine st buffer = .ok st := by
  simp [parseLine, hd, hv, hf]

theorem foldlM_skip (pre post : List (List Char)) (m : List Char) (st : ParseState)
    (hm : ∀ st, parseLine st m = .ok st) :
    (pre ++ m :: post).foldlM parseLine st = (pre ++ post).foldlM parseLine st := by
  induction pre generalizing st with
  | nil => simp [List.foldlM_cons, hm, bind, Except.bind]
  | cons l ls ih =>
    simp only [List.cons_append, List.foldlM_cons]
    cases parseLine st l with
    | error e => rfl
    | ok st1 => exact ih st1

theorem strcpy_fault {n : Nat} {dst : CharArray n} {b : List Char} {e : Fault}
    (h : strcpy dst b = .error e) : e = .overflow := by
  unfold strcpy at h
  split at h
  · cases h
  · injection h with h; exact h.symm

theorem strcat_fault {n : Nat} {dst : CharArray n} {b : List Char} {e : Fault}
    (h : strcat dst b = .error e) : e = .overflow ∨ e = .unterminated := by
  unfold strcat at h
  split at h
  · split at h
    · cases h
    · injection h with h; exact Or.inl h.symm
  · injection h with h; exact Or.inr h.symm

theorem parseLine_fault {st : ParseState} {b : List Char} {e : Fault}
    (h : parseLine st b = .error e) :
    e = .wildPointer ∨ e = .overflow ∨ e = .unterminated := by
  obtain ⟨⟨va, fa⟩, src⟩ := st
  unfold parseLine at h
  split at h
  · split at h
    · cases h
    · split at h <;> cases h
  · split at h
    · rcases src with _ | _ | _
      · simp [ParseState.deref, bind, Except.bind] at h
        exact Or.inl h.symm
      · cases hc : strcpy va b with
        | error e2 =>
          simp [ParseState.deref, bind, Except.bind, hc] at h
          exact Or.inr (Or.inl (h ▸ strcpy_fault hc))
        | ok d => simp [ParseState.deref, bind, Except.bind, hc, pure, Except.pure] at h
      · cases hc : strcpy fa b with
        | error e2 =>
          simp [ParseState.deref, bind, Except.bind, hc] at h
          exact Or.inr (Or.inl (h ▸ strcpy_fault hc))
        | ok d => simp [ParseState.deref, bind, Except.bind, hc, pure, Except.pure] at h
    · rcases src with _ | _ | _
      · simp [ParseState.deref, bind, Except.bind] at h
        exact Or.inl h.symm
      · cases hc : strcat va b with
        | error e2 =>
          simp [ParseState.deref, bind, Except.bind, hc] at h
          exact Or.inr (h ▸ strcat_fault hc)
        | ok d => simp [ParseState.deref, bind, Except.bind, hc, pure, Except.pure] at h
      · cases hc : strcat fa b with
        | error e2 =>
          simp [ParseState.deref, bind, Except.bind, hc] at h
          exact Or.inr (h ▸ strcat_fault hc)
        | ok d => simp [ParseState.deref, bind, Except.bind, hc, pure, Except.pure] at h

theorem foldlM_fault {ls : List (List Char)} {st : ParseState} {e : Fault}
    (h : ls.foldlM parseLine st = .error e) :
    e = .wildPointer ∨ e = .overflow ∨ e = .unterminated := by
  induction ls generalizing st with
  | nil => simp [pure, Except.pure] at h
  | cons l ls ih =>
    simp only [List.foldlM_cons] at h
    cases hp : parseLine st l with
    | error e2 =>
      rw [hp] at h
      simp only [bind, Except.bind] at h
      injection h with h
      exact h ▸ parseLine_fault hp
    | ok st1 =>
      rw [hp] at h
      exact ih h

/-- The iteration bound `parseShader` gives the loop is never exhausted: the
function is total, and a call either returns a struct or leaves defined
behaviour through a null stream, the unassigned pointer, an array without
NUL, or a write past the end of an array. -/
theorem parseShader_total (tmp : ShaderSource) (fp : Option (List Char)) :
    (∃ r, parseShader tmp fp = .ok r) ∨ parseShader tmp fp = .error .nullStream ∨
      parseShader tmp fp = .error .wildPointer ∨ parseShader tmp fp = .error .overflow ∨
      parseShader tmp fp = .error .unterminated := by
  cases fp with
  | none => exact Or.inr (Or.inl rfl)
  | some contents =>
    rw [parseShader_eq_foldlM]
    cases h : (fileLines contents).foldlM parseLine ⟨tmp, none⟩ with
    | ok st => exact Or.inl ⟨st.tmp, rfl⟩
    | error e =>
      rcases foldlM_fault h with rfl | rfl | rfl
      · exact Or.inr (Or.inr (Or.inl rfl))
      · exact Or.inr (Or.inr (Or.inr (Or.inl rfl)))
      · exact Or.inr (Or.inr (Or.inr (Or.inr rfl)))

/-! ### The backend: objects with a fresh name -/

theorem not_mem_shader_names {d : Driver} {w : World} {s : ShaderObject}
    (hs : s ∈ w.shaders) : s.name ≠ d.newName w.names := by
  intro h
  apply d.newName_not_mem w.names
  rw [← h]
  exact List.mem_append_left _ (List.mem_map_of_mem _ hs)

theorem map_fresh (L : List ShaderObject) (a : Nat) (g : ShaderObject → ShaderObject)
    (h : ∀ s ∈ L, s.name ≠ a) :
    L.map (fun s => if s.name = a then g s else s) = L := by
  induction L with
  | nil => rfl
  | cons x xs ih =>
    have hx := h x (List.mem_cons_self _ _)
    simp only [List.map_cons, if_neg hx]
    rw [ih (fun s hs => h s (List.mem_cons_of_mem _ hs))]

theorem find_fresh (L : List ShaderObject) (a : Nat) (x : ShaderObject)
    (h : ∀ s ∈ L, s.name ≠ a) (hx : x.name = a) :
    (L ++ [x]).find? (fun s => decide (s.name = a)) = some x := by
  induction L with
  | nil => simp [hx]
  | cons y ys ih =>
    have hy := h y (List.mem_cons_self _ _)
    simp only [List.cons_append, List.find?_cons, hy, decide_False]
    exact ih (fun s hs => h s (List.mem_cons_of_mem _ hs))

theorem filter_fresh (L : List ShaderObject) (a : Nat) (h : ∀ s ∈ L, s.name ≠ a) :
    L.filter (fun s => decide (s.name ≠ a)) = L := by
  rw [List.filter_eq_self]
  intro s hs
  simpa using h s hs

theorem find_none (L : List ShaderObject) (a : Nat) (h : ∀ s ∈ L, s.name ≠ a) :
    L.find? (fun s => decide (s.name = a)) = none := by
  rw [List.find?_eq_none]
  intro s hs
  simpa using h s hs

theorem compileShader_ok (d : Driver) (w : World) (type : Nat) (source : List Char)
    (hc : (d.compile type source).1 = true) :
    compileShader d type source w = .ok (d.newName w.names,
      ⟨w.shaders ++ [⟨d.newName w.names, type, source, true, (d.compile type source).2, false, []⟩],
       w.programs,
       w.calls ++ [.glCreateShader type (d.newName w.names),
         .glShaderSource (d.newName w.names) source,
         .glCompileShader (d.newName w.names),
         .glGetShaderiv (d.newName w.names) GL_COMPILE_STATUS],
       w.stdout⟩) := by
  have hf : ∀ s ∈ w.shaders, s.name ≠ d.newName w.names :=
    fun s hs => not_mem_shader_names hs
  have hz := d.newName_ne_zero w.names
  simp only [compileShader, glCreateShader, glShaderSource, glCompileShader, glGetShaderiv,
    World.record, World.modifyShader, World.findShader, List.map_append, List.map_cons,
    List.map_nil, map_fresh _ _ _ hf, if_true, if_neg hz]
  rw [find_fresh _ _ _ hf rfl]
  simp [hc, GL_FALSE]

theorem compileShader_fail (d : Driver) (w : World) (type : Nat) (source : List Char)
    (hc : (d.compile type source).1 = false) (hl : (d.compile type source).2 ≠ []) :
    compileShader d type source w = .ok (0,
      ⟨w.shaders, w.programs,
       w.calls ++ [.glCreateShader type (d.newName w.names),
         .glShaderSource (d.newName w.names) source,
         .glCompileShader (d.newName w.names),
         .glGetShaderiv (d.newName w.names) GL_COMPILE_STATUS,
         .glGetShaderiv (d.newName w.names) GL_INFO_LOG_LENGTH,
         .glGetShaderInfoLog (d.newName w.names) ((d.compile type source).2.length + 1),
         .glDeleteShader (d.newName w.names)],
       w.stdout ++ [(d.compile type source).2 ++ "\n".toList,
         "FILE: ".toList ++
           (if type = GL_VERTEX_SHADER then "vertex".toList else "fragment".toList) ++
           "\n".toList]⟩) := by
  have hf : ∀ s ∈ w.shaders, s.name ≠ d.newName w.names :=
    fun s hs => not_mem_shader_names hs
  have hz := d.newName_ne_zero w.names
  simp only [compileShader, glCreateShader, glShaderSource, glCompileShader, glGetShaderiv,
    glGetShaderInfoLog, glDeleteShader, printf,
    World.record, World.modifyShader, World.findShader, List.map_append, List.map_cons,
    List.map_nil, map_fresh _ _ _ hf, if_true]
  have h1 : GL_INFO_LOG_LENGTH ≠ GL_COMPILE_STATUS := by decide
  have hfl := filter_fresh _ _ hf
  simp only [ne_eq, decide_not] at hfl
  simp [hc, hl, hz, h1, GL_FALSE, List.filter_append, hfl, find_none _ _ hf]

theorem compileShader_empty_log (d : Driver) (w : World) (type : Nat) (source : List Char)
    (hc : (d.compile type source).1 = false) (hl : (d.compile type source).2 = []) :
    compileShader d type source w = .error .zeroSizeArray := by
  have hf : ∀ s ∈ w.shaders, s.name ≠ d.newName w.names :=
    fun s hs => not_mem_shader_names hs
  have hz := d.newName_ne_zero w.names
  simp only [compileShader, glCreateShader, glShaderSource, glCompileShader, glGetShaderiv,
    World.record, World.modifyShader, World.findShader, List.map_append, List.map_cons,
    List.map_nil, map_fresh _ _ _ hf, if_true, if_neg hz]
  have h1 : GL_INFO_LOG_LENGTH ≠ GL_COMPILE_STATUS := by decide
  simp [hc, hl, h1, GL_FALSE, find_none _ _ hf]

/-- The calls of `createShader` after the two compilations. -/
theorem createShader_eq (d : Driver) (w w1 w2 : World) (vsrc fsrc : List Char) (vs fs : Nat)
    (h1 : compileShader d GL_VERTEX_SHADER vsrc (glCreateProgram d w).2 = .ok (vs, w1))
    (h2 : compileShader d GL_FRAGMENT_SHADER fsrc w1 = .ok (fs, w2)) :
    createShader d vsrc fsrc w = .ok ((glCreateProgram d w).1,
      glDeleteShader fs (glDeleteShader vs
        (glValidateProgram d (glCreateProgram d w).1
          (glLinkProgram d (glCreateProgram d w).1
            (glAttachShader (glCreateProgram d w).1 fs
              (glAttachShader (glCreateProgram d w).1 vs w2)))))) := by
  simp only [createShader, h1, h2]

/-! ### What each call leaves alone -/

@[simp] theorem glAttachShader_calls (p s : Nat) (w : World) :
    (glAttachShader p s w).calls = w.calls ++ [.glAttachShader p s] := by
  unfold glAttachShader
  split
  · split <;> rfl
  · rfl

@[simp] theorem glAttachShader_stdout (p s : Nat) (w : World) :
    (glAttachShader p s w).stdout = w.stdout := by
  unfold glAttachShader
  split
  · split <;> rfl
  · rfl

@[simp] theorem glLinkProgram_shaders (d : Driver) (p : Nat) (w : World) :
    (glLinkProgram d p w).shaders = w.shaders := rfl

@[simp] theorem glLinkProgram_calls (d : Driver) (p : Nat) (w : World) :
    (glLinkProgram d p w).calls = w.calls ++ [.glLinkProgram p] := rfl

@[simp] theorem glLinkProgram_stdout (d : Driver) (p : Nat) (w : World) :
    (glLinkProgram d p w).stdout = w.stdout := rfl

@[simp] theorem glValidateProgram_shaders (d : Driver) (p : Nat) (w : World) :
    (glValidateProgram d p w).shaders = w.shaders := rfl

@[simp] theorem glValidateProgram_calls (d : Driver) (p : Nat) (w : World) :
    (glValidateProgram d p w).calls = w.calls ++ [.glValidateProgram p] := rfl

@[simp] theorem glValidateProgram_stdout (d : Driver) (p : Nat) (w : World) :
    (glValidateProgram d p w).stdout = w.stdout := rfl

@[simp] theorem glDeleteShader_calls (s : Nat) (w : World) :
    (glDeleteShader s w).calls = w.calls ++ [.glDeleteShader s] := by
  unfold glDeleteShader
  split
  · rfl
  · split
    · rfl
    · split <;> rfl

@[simp] theorem glDeleteShader_stdout (s : Nat) (w : World) :
    (glDeleteShader s w).stdout = w.stdout := by
  unfold glDeleteShader
  split
  · rfl
  · split
    · rfl
    · split <;> rfl

@[simp] theorem glDeleteShader_programs (s : Nat) (w : World) :
    (glDeleteShader s w).programs = w.programs := by
  unfold glDeleteShader
  split
  · rfl
  · split
    · rfl
    · split <;> rfl

theorem glDeleteShader_zero_shaders (w : World) :
    (glDeleteShader 0 w).shaders = w.shaders := by
  simp [glDeleteShader, World.record]

theorem glAttachShader_zero_shaders (p : Nat) (w : World) :
    (glAttachShader p 0 w).shaders = w.shaders := by
  simp [glAttachShader, World.findShader, World.record]

theorem glAttachShader_zero_programs (p : Nat) (w : World) :
    (glAttachShader p 0 w).programs = w.programs := by
  simp [glAttachShader, World.findShader, World.record]

theorem modify_names (L : List ProgramObject) (p : Nat) (g : ProgramObject → ProgramObject)
    (hg : ∀ x, (g x).name = x.name) :
    (L.map (fun x => if x.name = p then g x else x)).map (fun x => x.name) =
      L.map (fun x => x.name) := by
  induction L with
  | nil => rfl
  | cons y ys ih =>
    simp only [List.map_cons, ih]
    split <;> simp [hg]

@[simp] theorem glAttachShader_programs (p s : Nat) (w : World) :
    (glAttachShader p s w).programs.map (fun x => x.name) =
      w.programs.map (fun x => x.name) := by
  unfold glAttachShader
  split
  · split
    · rfl
    · simp only [World.record, World.modifyProgram, World.modifyShader]
      exact modify_names _ _ _ (fun _ => rfl)
  · rfl

@[simp] theorem glLinkProgram_programs (d : Driver) (p : Nat) (w : World) :
    (glLinkProgram d p w).programs.map (fun x => x.name) =
      w.programs.map (fun x => x.name) := by
  simp only [glLinkProgram, World.record, World.modifyProgram]
  exact modify_names _ _ _ (fun _ => rfl)

@[simp] theorem glValidateProgram_programs (d : Driver) (p : Nat) (w : World) :
    (glValidateProgram d p w).programs.map (fun x => x.name) =
      w.programs.map (fun x => x.name) := by
  simp only [glValidateProgram, World.record, World.modifyProgram]
  exact modify_names _ _ _ (fun _ => rfl)

/-! ### Attaching and deleting a shader object at a known place of the table -/

theorem map_at (L R : List ShaderObject) (X : ShaderObject) (x : Nat)
    (g : ShaderObject → ShaderObject) (hL : ∀ s ∈ L, s.name ≠ x)
    (hR : ∀ s ∈ R, s.name ≠ x) (hX : X.name = x) :
    (L ++ X :: R).map (fun s => if s.name = x then g s else s) = L ++ g X :: R := by
  rw [List.map_append, List.map_cons, map_fresh L x g hL, map_fresh R x g hR, if_pos hX]

theorem find_at (L R : List ShaderObject) (X : ShaderObject) (x : Nat)
    (hL : ∀ s ∈ L, s.name ≠ x) (hX : X.name = x) :
    (L ++ X :: R).find? (fun s => decide (s.name = x)) = some X := by
  rw [List.find?_append, find_none L x hL]
  simp [hX]

theorem filter_at (L R : List ShaderObject) (X : ShaderObject) (x : Nat)
    (hL : ∀ s ∈ L, s.name ≠ x) (hR : ∀ s ∈ R, s.name ≠ x) (hX : X.name = x) :
    (L ++ X :: R).filter (fun s => decide (s.name ≠ x)) = L ++ R := by
  rw [List.filter_append, List.filter_cons, filter_fresh L x hL, filter_fresh R x hR]
  simp [hX]

theorem prog_map_last (Pw : List ProgramObject) (P : ProgramObject) (p : Nat)
    (g : ProgramObject → ProgramObject) (hPw : ∀ q ∈ Pw, q.name ≠ p) (hP : P.name = p) :
    (Pw ++ [P]).map (fun q => if q.name = p then g q else q) = Pw ++ [g P] := by
  have h : Pw.map (fun q => if q.name = p then g q else q) = Pw := by
    induction Pw with
    | nil => rfl
    | cons y ys ih =>
      have hy := hPw y (List.mem_cons_self _ _)
      simp only [List.map_cons, if_neg hy]
      rw [ih (fun q hq => hPw q (List.mem_cons_of_mem _ hq))]
  rw [List.map_append, h, List.map_cons, List.map_nil, if_pos hP]

theorem prog_find_last (Pw : List ProgramObject) (P : ProgramObject) (p : Nat)
    (hPw : ∀ q ∈ Pw, q.name ≠ p) (hP : P.name = p) :
    (Pw ++ [P]).find? (fun q => decide (q.name = p)) = some P := by
  have h : Pw.find? (fun q => decide (q.name = p)) = none := by
    rw [List.find?_eq_none]
    intro q hq
    simpa using hPw q hq
  rw [List.find?_append, h]
  simp [hP]

/-- Attaching a shader object that exists to a program that exists and does
not have it yet: each of the two records the other. -/
theorem glAttachShader_at (u : World) (p x : Nat) (L R : List ShaderObject)
    (X : ShaderObject) (Pw : List ProgramObject) (P : ProgramObject)
    (hs : u.shaders = L ++ X :: R) (hp : u.programs = Pw ++ [P])
    (hL : ∀ s ∈ L, s.name ≠ x) (hR : ∀ s ∈ R, s.name ≠ x) (hX : X.name = x)
    (hPw : ∀ q ∈ Pw, q.name ≠ p) (hP : P.name = p) (hx0 : x ≠ 0) (hp0 : p ≠ 0)
    (hnot : x ∉ P.attached) :
    (glAttachShader p x u).shaders =
        L ++ { X with attachedTo := X.attachedTo ++ [p] } :: R ∧
      (glAttachShader p x u).programs =
        Pw ++ [{ P with attached := P.attached ++ [x] }] := by
  have h1 : u.findShader x = some X := by
    simp only [World.findShader, if_neg hx0, hs]
    exact find_at L R X x hL hX
  have h2 : u.findProgram p = some P := by
    simp only [World.findProgram, if_neg hp0, hp]
    exact prog_find_last Pw P p hPw hP
  simp only [glAttachShader, h1, h2, if_neg hnot, World.record, World.modifyShader,
    World.modifyProgram, hs, hp]
  exact ⟨map_at L R X x _ hL hR hX, prog_map_last Pw P p _ hPw hP⟩

/-- Deleting a shader object that is attached to a program: it is flagged and
stays in the table. -/
theorem glDeleteShader_attached (u : World) (x : Nat) (L R : List ShaderObject)
    (X : ShaderObject) (hs : u.shaders = L ++ X :: R)
    (hL : ∀ s ∈ L, s.name ≠ x) (hR : ∀ s ∈ R, s.name ≠ x) (hX : X.name = x)
    (hx0 : x ≠ 0) (hat : X.attachedTo ≠ []) :
    (glDeleteShader x u).shaders = L ++ { X with deleteStatus := true } :: R := by
  have h1 : u.findShader x = some X := by
    simp only [World.findShader, if_neg hx0, hs]
    exact find_at L R X x hL hX
  simp only [glDeleteShader, if_neg hx0, h1, if_neg hat, World.record, World.modifyShader, hs]
  exact map_at L R X x _ hL hR hX

/-! ### `compileShader` and `createShader` call by call -/

theorem createProgram_shaders (d : Driver) (w : World) :
    (glCreateProgram d w).2.shaders = w.shaders := rfl

theorem createProgram_calls (d : Driver) (w : World) :
    (glCreateProgram d w).2.calls = w.calls ++ [.glCreateProgram (d.newName w.names)] := rfl

theorem createProgram_stdout (d : Driver) (w : World) :
    (glCreateProgram d w).2.stdout = w.stdout := rfl

theorem createProgram_result (d : Driver) (w : World) :
    (glCreateProgram d w).1 = d.newName w.names := rfl

theorem createProgram_programs (d : Driver) (w : World) :
    (glCreateProgram d w).2.programs = w.programs ++ [⟨d.newName w.names, [], false, false⟩] :=
  rfl

theorem not_mem_program_names {d : Driver} {w : World} {q : ProgramObject}
    (hq : q ∈ w.programs) : q.name ≠ d.newName w.names := by
  intro h
  apply d.newName_not_mem w.names
  rw [← h]
  exact List.mem_append_right _ (List.mem_map_of_mem _ hq)

/-- A compilation that succeeds: the new shader object stays in the table and
its name is returned. -/
theorem compileShader_ok_spec (d : Driver) (w : World) (type : Nat) (source : List Char)
    (hc : (d.compile type source).1 = true) :
    ∃ w1, compileShader d type source w = .ok (d.newName w.names, w1) ∧
      w1.shaders = w.shaders ++
        [⟨d.newName w.names, type, source, true, (d.compile type source).2, false, []⟩] ∧
      w1.programs = w.programs ∧
      w1.calls = w.calls ++ [.glCreateShader type (d.newName w.names),
         .glShaderSource (d.newName w.names) source,
         .glCompileShader (d.newName w.names),
         .glGetShaderiv (d.newName w.names) GL_COMPILE_STATUS] ∧
      w1.stdout = w.stdout :=
  ⟨_, compileShader_ok d w type source hc, rfl, rfl, rfl, rfl⟩

/-- A compilation that fails with a log: the log and the stage are printed,
the new shader object, attached to nothing, is destroyed again and 0 is
returned. -/
theorem compileShader_fail_spec (d : Driver) (w : World) (type : Nat) (source : List Char)
    (hc : (d.compile type source).1 = false) (hl : (d.compile type source).2 ≠ []) :
    ∃ w1, compileShader d type source w = .ok (0, w1) ∧
      w1.shaders = w.shaders ∧ w1.programs = w.programs ∧
      w1.calls = w.calls ++ [.glCreateShader type (d.newName w.names),
         .glShaderSource (d.newName w.names) source,
         .glCompileShader (d.newName w.names),
         .glGetShaderiv (d.newName w.names) GL_COMPILE_STATUS,
         .glGetShaderiv (d.newName w.names) GL_INFO_LOG_LENGTH,
         .glGetShaderInfoLog (d.newName w.names) ((d.compile type source).2.length + 1),
         .glDeleteShader (d.newName w.names)] ∧
      w1.stdout = w.stdout ++ [(d.compile type source).2 ++ "\n".toList,
         "FILE: ".toList ++
           (if type = GL_VERTEX_SHADER then "vertex".toList else "fragment".toList) ++
           "\n".toList] :=
  ⟨_, compileShader_fail d w type source hc hl, rfl, rfl, rfl, rfl⟩

/-- The effect of `createShader` for each outcome of the two compilations.
`vs` and `fs` are what the two calls of `compileShader` return and `pre` is
the record of the calls up to the first `glAttachShader`. -/
theorem createShader_effect (d : Driver) (w : World) (vsrc fsrc : List Char)
    (hvlog : (d.compile GL_VERTEX_SHADER vsrc).1 = false →
      (d.compile GL_VERTEX_SHADER vsrc).2 ≠ [])
    (hflog : (d.compile GL_FRAGMENT_SHADER fsrc).1 = false →
      (d.compile GL_FRAGMENT_SHADER fsrc).2 ≠ []) :
    ∃ w' vs fs pre, createShader d vsrc fsrc w = .ok (d.newName w.names, w') ∧
      (vs = 0 ↔ (d.compile GL_VERTEX_SHADER vsrc).1 = false) ∧
      (fs = 0 ↔ (d.compile GL_FRAGMENT_SHADER fsrc).1 = false) ∧
      w'.calls = w.calls ++ pre ++
        [.glAttachShader (d.newName w.names) vs, .glAttachShader (d.newName w.names) fs,
         .glLinkProgram (d.newName w.names), .glValidateProgram (d.newName w.names),
         .glDeleteShader vs, .glDeleteShader fs] ∧
      (createdShaders pre).length = 2 ∧
      (createdShaders pre).Perm
        (deletedShaders pre ++ [vs, fs].filter (fun x => decide (x ≠ 0))) ∧
      w'.shaders = w.shaders ++
        (if vs = 0 then []
          else [⟨vs, GL_VERTEX_SHADER, vsrc, true, (d.compile GL_VERTEX_SHADER vsrc).2,
            true, [d.newName w.names]⟩]) ++
        (if fs = 0 then []
          else [⟨fs, GL_FRAGMENT_SHADER, fsrc, true, (d.compile GL_FRAGMENT_SHADER fsrc).2,
            true, [d.newName w.names]⟩]) := by
  have hp0 := d.newName_ne_zero w.names
  have hPw : ∀ q ∈ w.programs, q.name ≠ d.newName w.names :=
    fun q hq => not_mem_program_names hq
  have hLa : ∀ s ∈ w.shaders, s.name ≠ d.newName (glCreateProgram d w).2.names :=
    fun s hs => not_mem_shader_names (w := (glCreateProgram d w).2) hs
  have ha0 := d.newName_ne_zero (glCreateProgram d w).2.names
  cases hv : (d.compile GL_VERTEX_SHADER vsrc).1 <;>
    cases hf : (d.compile GL_FRAGMENT_SHADER fsrc).1
  · -- both compilations fail
    obtain ⟨w1, h1, hs1, hp1, hc1, -⟩ :=
      compileShader_fail_spec d (glCreateProgram d w).2 _ vsrc hv (hvlog hv)
    obtain ⟨w2, h2, hs2, hp2, hc2, -⟩ := compileShader_fail_spec d w1 _ fsrc hf (hflog hf)
    have hb0 := d.newName_ne_zero w1.names
    refine ⟨_, 0, 0, ([.glCreateProgram (d.newName w.names)] ++
        [.glCreateShader GL_VERTEX_SHADER (d.newName (glCreateProgram d w).2.names), .glShaderSource (d.newName (glCreateProgram d w).2.names) vsrc,
        .glCompileShader (d.newName (glCreateProgram d w).2.names), .glGetShaderiv (d.newName (glCreateProgram d w).2.names) GL_COMPILE_STATUS,
        .glGetShaderiv (d.newName (glCreateProgram d w).2.names) GL_INFO_LOG_LENGTH,
        .glGetShaderInfoLog (d.newName (glCreateProgram d w).2.names) ((d.compile GL_VERTEX_SHADER vsrc).2.length + 1),
        .glDeleteShader (d.newName (glCreateProgram d w).2.names)] ++
        [.glCreateShader GL_FRAGMENT_SHADER (d.newName w1.names), .glShaderSource (d.newName w1.names) fsrc,
        .glCompileShader (d.newName w1.names), .glGetShaderiv (d.newName w1.names) GL_COMPILE_STATUS,
        .glGetShaderiv (d.newName w1.names) GL_INFO_LOG_LENGTH,
        .glGetShaderInfoLog (d.newName w1.names) ((d.compile GL_FRAGMENT_SHADER fsrc).2.length + 1),
        .glDeleteShader (d.newName w1.names)]),
      createShader_eq d w _ _ vsrc fsrc _ _ h1 h2, ?i1, ?j1, ?t1, ?u1,
      ?v1, ?s1⟩
    case t1 =>
      simp [hc2, hc1, createProgram_calls, createProgram_result]
    case i1 => simp
    case j1 => simp
    case u1 => simp [createdShaders]
    case v1 => simp [createdShaders, deletedShaders, ha0, hb0]
    case s1 =>
      simp [glDeleteShader_zero_shaders, glAttachShader_zero_shaders, hs2, hs1,
        createProgram_shaders]
  · -- the vertex compilation fails, the fragment compilation succeeds
    obtain ⟨w1, h1, hs1, hp1, hc1, -⟩ :=
      compileShader_fail_spec d (glCreateProgram d w).2 _ vsrc hv (hvlog hv)
    obtain ⟨w2, h2, hs2, hp2, hc2, -⟩ := compileShader_ok_spec d w1 _ fsrc hf
    have hb0 := d.newName_ne_zero w1.names
    have hLb : ∀ s ∈ w.shaders, s.name ≠ d.newName w1.names := by
      intro s hs
      apply not_mem_shader_names
      rw [hs1, createProgram_shaders]
      exact hs
    rw [hs1, createProgram_shaders] at hs2
    rw [hp1, createProgram_programs] at hp2
    have e3s : (glAttachShader (d.newName w.names) 0 w2).shaders = _ :=
      (glAttachShader_zero_shaders _ _).trans hs2
    have e3p : (glAttachShader (d.newName w.names) 0 w2).programs = _ :=
      (glAttachShader_zero_programs _ _).trans hp2
    obtain ⟨e4s, -⟩ := glAttachShader_at _ (d.newName w.names) (d.newName w1.names)
      w.shaders [] _ w.programs _ e3s e3p hLb (by simp) rfl hPw rfl hb0 hp0 (by simp)
    have e7s : (glDeleteShader 0 (glValidateProgram d (d.newName w.names)
        (glLinkProgram d (d.newName w.names)
          (glAttachShader (d.newName w.names) (d.newName w1.names)
            (glAttachShader (d.newName w.names) 0 w2))))).shaders = _ :=
      (glDeleteShader_zero_shaders _).trans e4s
    have e8s := glDeleteShader_attached _ (d.newName w1.names) w.shaders [] _ e7s hLb
      (by simp) rfl hb0 (by simp)
    refine ⟨_, 0, (d.newName w1.names), ([.glCreateProgram (d.newName w.names)] ++
        [.glCreateShader GL_VERTEX_SHADER (d.newName (glCreateProgram d w).2.names), .glShaderSource (d.newName (glCreateProgram d w).2.names) vsrc,
        .glCompileShader (d.newName (glCreateProgram d w).2.names), .glGetShaderiv (d.newName (glCreateProgram d w).2.names) GL_COMPILE_STATUS,
        .glGetShaderiv (d.newName (glCreateProgram d w).2.names) GL_INFO_LOG_LENGTH,
        .glGetShaderInfoLog (d.newName (glCreateProgram d w).2.names) ((d.compile GL_VERTEX_SHADER vsrc).2.length + 1),
        .glDeleteShader (d.newName (glCreateProgram d w).2.names)] ++
        [.glCreateShader GL_FRAGMENT_SHADER (d.newName w1.names), .glShaderSource (d.newName w1.names) fsrc,
        .glCompileShader (d.newName w1.names), .glGetShaderiv (d.newName w1.names) GL_COMPILE_STATUS]),
      createShader_eq d w _ _ vsrc fsrc _ _ h1 h2, ?i2, ?j2, ?t2, ?u2,
      ?v2, ?s2⟩
    case t2 =>
      simp [hc2, hc1, createProgram_calls, createProgram_result]
    case i2 => simp
    case j2 => simp [hb0]
    case u2 => simp [createdShaders]
    case v2 => simp [createdShaders, deletedShaders, ha0, hb0]
    case s2 =>
      rw [createProgram_result, e8s]
      simp [hb0]
  · -- the vertex compilation succeeds, the fragment compilation fails
    obtain ⟨w1, h1, hs1, hp1, hc1, -⟩ :=
      compileShader_ok_spec d (glCreateProgram d w).2 _ vsrc hv
    obtain ⟨w2, h2, hs2, hp2, hc2, -⟩ := compileShader_fail_spec d w1 _ fsrc hf (hflog hf)
    have hb0 := d.newName_ne_zero w1.names
    rw [hs1, createProgram_shaders] at hs2
    rw [hp1, createProgram_programs] at hp2
    obtain ⟨e3s, e3p⟩ := glAttachShader_at w2 (d.newName w.names)
      (d.newName (glCreateProgram d w).2.names)
      w.shaders [] _ w.programs _ hs2 hp2 hLa (by simp) rfl hPw rfl ha0 hp0 (by simp)
    have e4s : (glAttachShader (d.newName w.names) 0
        (glAttachShader (d.newName w.names) (d.newName (glCreateProgram d w).2.names)
          w2)).shaders = _ := (glAttachShader_zero_shaders _ _).trans e3s
    have e6s : (glValidateProgram d (d.newName w.names)
        (glLinkProgram d (d.newName w.names)
          (glAttachShader (d.newName w.names) 0
            (glAttachShader (d.newName w.names) (d.newName (glCreateProgram d w).2.names)
              w2)))).shaders = _ := e4s
    have e7s := glDeleteShader_attached _ (d.newName (glCreateProgram d w).2.names)
      w.shaders [] _ e6s hLa (by simp) rfl ha0 (by simp)
    refine ⟨_, (d.newName (glCreateProgram d w).2.names), 0, ([.glCreateProgram (d.newName w.names)] ++
        [.glCreateShader GL_VERTEX_SHADER (d.newName (glCreateProgram d w).2.names), .glShaderSource (d.newName (glCreateProgram d w).2.names) vsrc,
        .glCompileShader (d.newName (glCreateProgram d w).2.names), .glGetShaderiv (d.newName (glCreateProgram d w).2.names) GL_COMPILE_STATUS] ++
        [.glCreateShader GL_FRAGMENT_SHADER (d.newName w1.names), .glShaderSource (d.newName w1.names) fsrc,
        .glCompileShader (d.newName w1.names), .glGetShaderiv (d.newName w1.names) GL_COMPILE_STATUS,
        .glGetShaderiv (d.newName w1.names) GL_INFO_LOG_LENGTH,
        .glGetShaderInfoLog (d.newName w1.names) ((d.compile GL_FRAGMENT_SHADER fsrc).2.length + 1),
        .glDeleteShader (d.newName w1.names)]),
      createShader_eq d w _ _ vsrc fsrc _ _ h1 h2, ?i3, ?j3, ?t3, ?u3,
      ?v3, ?s3⟩
    case t3 =>
      simp [hc2, hc1, createProgram_calls, createProgram_result]
    case i3 => simp [ha0]
    case j3 => simp
    case u3 => simp [createdShaders]
    case v3 =>
      simp [createdShaders, deletedShaders, ha0, hb0]
      exact List.Perm.swap _ _ _
    case s3 =>
      rw [createProgram_result, glDeleteShader_zero_shaders, e7s]
      simp [ha0]
  · -- both compilations succeed
    obtain ⟨w1, h1, hs1, hp1, hc1, -⟩ :=
      compileShader_ok_spec d (glCreateProgram d w).2 _ vsrc hv
    obtain ⟨w2, h2, hs2, hp2, hc2, -⟩ := compileShader_ok_spec d w1 _ fsrc hf
    have hb0 := d.newName_ne_zero w1.names
    have hLb : ∀ s ∈ w.shaders, s.name ≠ d.newName w1.names := by
      intro s hs
      apply not_mem_shader_names
      rw [hs1, createProgram_shaders]
      exact List.mem_append_left _ hs
    have hab : d.newName (glCreateProgram d w).2.names ≠ d.newName w1.names :=
      not_mem_shader_names (d := d) (w := w1) (s := (⟨d.newName (glCreateProgram d w).2.names, GL_VERTEX_SHADER, vsrc, true, (d.compile GL_VERTEX_SHADER vsrc).2, false, []⟩ : ShaderObject)) (by rw [hs1]; simp)
    rw [hs1, createProgram_shaders, List.append_assoc, List.singleton_append] at hs2
    rw [hp1, createProgram_programs] at hp2
    have e3 := glAttachShader_at w2 (d.newName w.names) (d.newName (glCreateProgram d w).2.names) w.shaders [(⟨d.newName w1.names, GL_FRAGMENT_SHADER, fsrc, true, (d.compile GL_FRAGMENT_SHADER fsrc).2, false, []⟩ : ShaderObject)]
      (⟨d.newName (glCreateProgram d w).2.names, GL_VERTEX_SHADER, vsrc, true, (d.compile GL_VERTEX_SHADER vsrc).2, false, []⟩ : ShaderObject) w.programs (⟨d.newName w.names, [], false, false⟩ : ProgramObject) hs2 hp2 hLa (by simpa using hab.symm) rfl hPw rfl ha0 hp0 (by simp)
    have e3s : (glAttachShader (d.newName w.names) (d.newName (glCreateProgram d w).2.names) w2).shaders = (w.shaders ++ [(⟨d.newName (glCreateProgram d w).2.names, GL_VERTEX_SHADER, vsrc, true, (d.compile GL_VERTEX_SHADER vsrc).2, false, [d.newName w.names]⟩ : ShaderObject)]) ++ (⟨d.newName w1.names, GL_FRAGMENT_SHADER, fsrc, true, (d.compile GL_FRAGMENT_SHADER fsrc).2, false, []⟩ : ShaderObject) :: [] := by
      rw [e3.1]; simp
    have e3p : (glAttachShader (d.newName w.names) (d.newName (glCreateProgram d w).2.names) w2).programs = w.programs ++ [(⟨d.newName w.names, [d.newName (glCreateProgram d w).2.names], false, false⟩ : ProgramObject)] := e3.2
    have hLb1 : ∀ s ∈ w.shaders ++ [(⟨d.newName (glCreateProgram d w).2.names, GL_VERTEX_SHADER, vsrc, true, (d.compile GL_VERTEX_SHADER vsrc).2, false, [d.newName w.names]⟩ : ShaderObject)], s.name ≠ d.newName w1.names := by
      intro s hs
      rcases List.mem_append.1 hs with hs | hs
      · exact hLb s hs
      · rw [List.mem_singleton.1 hs]; exact hab
    have e4 := glAttachShader_at (glAttachShader (d.newName w.names) (d.newName (glCreateProgram d w).2.names) w2) (d.newName w.names) (d.newName w1.names) (w.shaders ++ [(⟨d.newName (glCreateProgram d w).2.names, GL_VERTEX_SHADER, vsrc, true, (d.compile GL_VERTEX_SHADER vsrc).2, false, [d.newName w.names]⟩ : ShaderObject)]) []
      (⟨d.newName w1.names, GL_FRAGMENT_SHADER, fsrc, true, (d.compile GL_FRAGMENT_SHADER fsrc).2, false, []⟩ : ShaderObject) w.programs (⟨d.newName w.names, [d.newName (glCreateProgram d w).2.names], false, false⟩ : ProgramObject) e3s e3p hLb1 (by simp) rfl hPw rfl hb0 hp0
      (by simpa using hab.symm)
    have e6s : (glValidateProgram d (d.newName w.names) (glLinkProgram d (d.newName w.names) (glAttachShader (d.newName w.names) (d.newName w1.names) (glAttachShader (d.newName w.names) (d.newName (glCreateProgram d w).2.names) w2)))).shaders = w.shaders ++ (⟨d.newName (glCreateProgram d w).2.names, GL_VERTEX_SHADER, vsrc, true, (d.compile GL_VERTEX_SHADER vsrc).2, false, [d.newName w.names]⟩ : ShaderObject) :: [(⟨d.newName w1.names, GL_FRAGMENT_SHADER, fsrc, true, (d.compile GL_FRAGMENT_SHADER fsrc).2, false, [d.newName w.names]⟩ : ShaderObject)] := by
      show (glAttachShader (d.newName w.names) (d.newName w1.names) (glAttachShader (d.newName w.names) (d.newName (glCreateProgram d w).2.names) w2)).shaders = _
      rw [e4.1]; simp
    have e7 := glDeleteShader_attached (glValidateProgram d (d.newName w.names) (glLinkProgram d (d.newName w.names) (glAttachShader (d.newName w.names) (d.newName w1.names) (glAttachShader (d.newName w.names) (d.newName (glCreateProgram d w).2.names) w2)))) (d.newName (glCreateProgram d w).2.names) w.shaders [(⟨d.newName w1.names, GL_FRAGMENT_SHADER, fsrc, true, (d.compile GL_FRAGMENT_SHADER fsrc).2, false, [d.newName w.names]⟩ : ShaderObject)] (⟨d.newName (glCreateProgram d w).2.names, GL_VERTEX_SHADER, vsrc, true, (d.compile GL_VERTEX_SHADER vsrc).2, false, [d.newName w.names]⟩ : ShaderObject) e6s hLa
      (by simpa using hab.symm) rfl ha0 (by simp)
    have e7s : (glDeleteShader (d.newName (glCreateProgram d w).2.names) (glValidateProgram d (d.newName w.names) (glLinkProgram d (d.newName w.names) (glAttachShader (d.newName w.names) (d.newName w1.names) (glAttachShader (d.newName w.names) (d.newName (glCreateProgram d w).2.names) w2))))).shaders = (w.shaders ++ [(⟨d.newName (glCreateProgram d w).2.names, GL_VERTEX_SHADER, vsrc, true, (d.compile GL_VERTEX_SHADER vsrc).2, true, [d.newName w.names]⟩ : ShaderObject)]) ++ (⟨d.newName w1.names, GL_FRAGMENT_SHADER, fsrc, true, (d.compile GL_FRAGMENT_SHADER fsrc).2, false, [d.newName w.names]⟩ : ShaderObject) :: [] := by
      rw [e7]; simp
    have hLb2 : ∀ s ∈ w.shaders ++ [(⟨d.newName (glCreateProgram d w).2.names, GL_VERTEX_SHADER, vsrc, true, (d.compile GL_VERTEX_SHADER vsrc).2, true, [d.newName w.names]⟩ : ShaderObject)], s.name ≠ d.newName w1.names := by
      intro s hs
      rcases List.mem_append.1 hs with hs | hs
      · exact hLb s hs
      · rw [List.mem_singleton.1 hs]; exact hab
    have e8 := glDeleteShader_attached (glDeleteShader (d.newName (glCreateProgram d w).2.names) (glValidateProgram d (d.newName w.names) (glLinkProgram d (d.newName w.names) (glAttachShader (d.newName w.names) (d.newName w1.names) (glAttachShader (d.newName w.names) (d.newName (glCreateProgram d w).2.names) w2))))) (d.newName w1.names) (w.shaders ++ [(⟨d.newName (glCreateProgram d w).2.names, GL_VERTEX_SHADER, vsrc, true, (d.compile GL_VERTEX_SHADER vsrc).2, true, [d.newName w.names]⟩ : ShaderObject)]) [] (⟨d.newName w1.names, GL_FRAGMENT_SHADER, fsrc, true, (d.compile GL_FRAGMENT_SHADER fsrc).2, false, [d.newName w.names]⟩ : ShaderObject) e7s hLb2
      (by simp) rfl hb0 (by simp)
    refine ⟨_, (d.newName (glCreateProgram d w).2.names), (d.newName w1.names), ([.glCreateProgram (d.newName w.names)] ++
        [.glCreateShader GL_VERTEX_SHADER (d.newName (glCreateProgram d w).2.names), .glShaderSource (d.newName (glCreateProgram d w).2.names) vsrc,
        .glCompileShader (d.newName (glCreateProgram d w).2.names), .glGetShaderiv (d.newName (glCreateProgram d w).2.names) GL_COMPILE_STATUS] ++
        [.glCreateShader GL_FRAGMENT_SHADER (d.newName w1.names), .glShaderSource (d.newName w1.names) fsrc,
        .glCompileShader (d.newName w1.names), .glGetShaderiv (d.newName w1.names) GL_COMPILE_STATUS]),
      createShader_eq d w _ _ vsrc fsrc _ _ h1 h2, ?i4, ?j4, ?t4, ?u4, ?v4, ?s4⟩
    case t4 =>
      simp [hc2, hc1, createProgram_calls, createProgram_result]
    case i4 => simp [ha0, hv]
    case j4 => simp [hb0, hf]
    case u4 => simp [createdShaders]
    case v4 => simp [createdShaders, deletedShaders, ha0, hb0]
    case s4 =>
      rw [createProgram_result, e8]
      simp [ha0, hb0]

/-- A failed vertex compilation and a successful fragment compilation: the
complete effect of `createShader`. -/
theorem createShader_vertex_fail (d : Driver) (w : World) (vsrc fsrc : List Char)
    (hv : (d.compile GL_VERTEX_SHADER vsrc).1 = false)
    (hvl : (d.compile GL_VERTEX_SHADER vsrc).2 ≠ [])
    (hf : (d.compile GL_FRAGMENT_SHADER fsrc).1 = true) :
    ∃ w', createShader d vsrc fsrc w = .ok (d.newName w.names, w') ∧
      w'.programs.map (fun p => p.name) =
        w.programs.map (fun p => p.name) ++ [d.newName w.names] ∧
      w'.stdout = w.stdout ++
        [(d.compile GL_VERTEX_SHADER vsrc).2 ++ "\n".toList, "FILE: vertex\n".toList] ∧
      w'.calls = w.calls ++
        [.glCreateProgram (d.newName w.names),
         .glCreateShader GL_VERTEX_SHADER (d.newName (glCreateProgram d w).2.names),
         .glShaderSource (d.newName (glCreateProgram d w).2.names) vsrc,
         .glCompileShader (d.newName (glCreateProgram d w).2.names),
         .glGetShaderiv (d.newName (glCreateProgram d w).2.names) GL_COMPILE_STATUS,
         .glGetShaderiv (d.newName (glCreateProgram d w).2.names) GL_INFO_LOG_LENGTH,
         .glGetShaderInfoLog (d.newName (glCreateProgram d w).2.names)
           ((d.compile GL_VERTEX_SHADER vsrc).2.length + 1),
         .glDeleteShader (d.newName (glCreateProgram d w).2.names),
         .glCreateShader GL_FRAGMENT_SHADER (d.newName (glCreateProgram d w).2.names),
         .glShaderSource (d.newName (glCreateProgram d w).2.names) fsrc,
         .glCompileShader (d.newName (glCreateProgram d w).2.names),
         .glGetShaderiv (d.newName (glCreateProgram d w).2.names) GL_COMPILE_STATUS,
         .glAttachShader (d.newName w.names) 0,
         .glAttachShader (d.newName w.names) (d.newName (glCreateProgram d w).2.names),
         .glLinkProgram (d.newName w.names),
         .glValidateProgram (d.newName w.names),
         .glDeleteShader 0,
         .glDeleteShader (d.newName (glCreateProgram d w).2.names)] := by
  obtain ⟨w1, h1, hs1, hp1, hc1, ho1⟩ :=
    compileShader_fail_spec d (glCreateProgram d w).2 _ vsrc hv hvl
  obtain ⟨w2, h2, hs2, hp2, hc2, ho2⟩ := compileShader_ok_spec d w1 _ fsrc hf
  have hn : w1.names = (glCreateProgram d w).2.names := by
    simp only [World.names, hs1, hp1]
  rw [hn] at h2 hc2
  refine ⟨_, createShader_eq d w _ _ vsrc fsrc _ _ h1 h2, ?_, ?_, ?_⟩
  · simp [hp2, hp1, createProgram_programs]
  · simp [ho2, ho1, createProgram_stdout]
  · simp only [glDeleteShader_calls, glValidateProgram_calls, glLinkProgram_calls,
      glAttachShader_calls, hc2, hc1, createProgram_calls, createProgram_result,
      List.append_assoc]
    rfl

/-- The calls of `createShader` that return are exactly those in which a
failed compilation comes with a log that is not empty: with an empty log
`compileShader` declares `char message[0]`. -/
theorem createShader_returns_iff (d : Driver) (w : World) (vsrc fsrc : List Char) :
    (∃ r, createShader d vsrc fsrc w = .ok r) ↔
      (((d.compile GL_VERTEX_SHADER vsrc).1 = false →
          (d.compile GL_VERTEX_SHADER vsrc).2 ≠ []) ∧
        ((d.compile GL_FRAGMENT_SHADER fsrc).1 = false →
          (d.compile GL_FRAGMENT_SHADER fsrc).2 ≠ [])) := by
  constructor
  · rintro ⟨r, hr⟩
    constructor
    · intro hv hl
      have h1 := compileShader_empty_log d (glCreateProgram d w).2 _ vsrc hv hl
      simp [createShader, h1] at hr
    · intro hf hl
      have h2 := fun w1 => compileShader_empty_log d w1 _ fsrc hf hl
      cases h1 : compileShader d GL_VERTEX_SHADER vsrc (glCreateProgram d w).2 with
      | error e => simp [createShader, h1] at hr
      | ok p => simp [createShader, h1, h2] at hr
  · rintro ⟨hv, hf⟩
    obtain ⟨w', _, _, _, h, _⟩ := createShader_effect d w vsrc fsrc hv hf
    exact ⟨_, h⟩

/-! ## The claims -/

/-- C2. While a section `K` is current, a line read by `fgets` that contains
"#version" and not "#shader" replaces the text of `K`: right after the line is
processed the text of `K` is exactly that line (the C string in `buffer`),
whatever `K` held before, `K` is still current, and the other section's array
is unchanged. -/
theorem version_line_replaces_section_text (st : ParseState) (K : Target)
    (fp buffer rest : List Char) (hread : fgets 512 fp = some (buffer, rest))
    (hcur : st.src = some K) (hv : strstr buffer version = true)
    (hd : strstr buffer divider = false) :
    ∃ st', parseLine st buffer = .ok st' ∧ st'.src = some K ∧
      (st'.tmp.field K).text = some (cstr buffer) ∧
      st'.tmp.field K.other = st.tmp.field K.other := by
  have h1 := fgets_length_le hread
  have h2 := length_cstr_le buffer
  exact parseLine_version hcur hv hd (by omega)

/-- C2, at a vertex section that already holds one character of text. -/
theorem version_line_replaces_section_text_witness :
    ∃ st', parseLine ⟨⟨CharArray.single 'a', CharArray.single 'b'⟩, some .vertex⟩
        "#version 120\n".toList = .ok st' ∧ st'.src = some .vertex ∧
      (st'.tmp.field .vertex).text = some (cstr "#version 120\n".toList) ∧
      st'.tmp.field Target.vertex.other =
        (ShaderSource.mk (CharArray.single 'a') (CharArray.single 'b')).field
          Target.vertex.other :=
  version_line_replaces_section_text
    ⟨⟨CharArray.single 'a', CharArray.single 'b'⟩, some .vertex⟩ .vertex
    "#version 120\nvoid main();\n".toList "#version 120\n".toList "void main();\n".toList
    (by decide) rfl (by decide) (by decide)

/-- C10. A line that contains "#shader", "vertex" and "fragment" makes the
vertex section current, wherever in the line the tokens stand: the test for
"vertex" comes first and the test for "fragment" is then skipped. Both arrays
are left as they were. -/
theorem marker_with_both_tokens_selects_vertex (st : ParseState) (buffer : List Char)
    (hd : strstr buffer divider = true) (hv : strstr buffer v = true)
    (hf : strstr buffer f = true) :
    parseLine st buffer = .ok ⟨st.tmp, some .vertex⟩ ∧
      parseLine st buffer ≠ .ok ⟨st.tmp, some .fragment⟩ := by
  have _ := hf
  have h : parseLine st buffer = .ok ⟨st.tmp, some .vertex⟩ := by
    simp [parseLine, hd, hv]
  refine ⟨h, ?_⟩
  rw [h]
  intro h2
  injection h2 with h3
  injection h3 with _ h4
  cases h4

/-- C10, at a line with "fragment" before "vertex" while the fragment section
is current. -/
theorem marker_with_both_tokens_selects_vertex_witness :
    parseLine ⟨garbage, some .fragment⟩ "#shader fragment // after vertex\n".toList
        = .ok ⟨garbage, some .vertex⟩ ∧
      parseLine ⟨garbage, some .fragment⟩ "#shader fragment // after vertex\n".toList
        ≠ .ok ⟨garbage, some .fragment⟩ :=
  marker_with_both_tokens_selects_vertex ⟨garbage, some .fragment⟩
    "#shader fragment // after vertex\n".toList (by decide) (by decide) (by decide)

/-- C1. A file of the two-section format, the lines "#shader vertex", `V0`,
`v1..vn`, "#shader fragment", `F0`, `f1..fm`, each with its line terminator,
where `V0` and `F0` contain "#version" and not "#shader", no other line
contains either, and each section totals at most 511 bytes (so that every
line has at most 511 characters): whatever the arrays of `tmp` held on entry,
`parseShader` returns, the vertex text is exactly `V0`, `v1..vn` in order, the
fragment text is exactly `F0`, `f1..fm` in order, and "#shader" occurs in
neither text. -/
theorem well_formed_two_sections_parse (tmp : ShaderSource) (V0 F0 : List Char)
    (vs fs : List (List Char))
    (hchars : ∀ l ∈ V0 :: F0 :: (vs ++ fs), NUL ∉ l ∧ NL ∉ l)
    (hV0 : strstr V0 version = true ∧ strstr V0 divider = false)
    (hF0 : strstr F0 version = true ∧ strstr F0 divider = false)
    (hcontent : ∀ l ∈ vs ++ fs, strstr l divider = false ∧ strstr l version = false)
    (hvlen : (fileOf (V0 :: vs)).length ≤ 511)
    (hflen : (fileOf (F0 :: fs)).length ≤ 511) :
    ∃ r, parseShader tmp (some (fileOf (("#shader vertex".toList :: V0 :: vs) ++
          ("#shader fragment".toList :: F0 :: fs)))) = .ok r ∧
      r.VertexShader.text = some (fileOf (V0 :: vs)) ∧
      r.FragmentShader.text = some (fileOf (F0 :: fs)) ∧
      strstr (fileOf (V0 :: vs)) divider = false ∧
      strstr (fileOf (F0 :: fs)) divider = false := by
  have hlines : ∀ l ∈ ("#shader vertex".toList :: V0 :: vs) ++
      ("#shader fragment".toList :: F0 :: fs), NL ∉ l ∧ l.length ≤ 510 := by
    intro l hl
    simp only [List.mem_append, List.mem_cons] at hl
    rcases hl with (rfl | rfl | hl) | (rfl | rfl | hl)
    · exact ⟨by decide, by decide⟩
    · have := length_le_fileOf (List.mem_cons_self l vs)
      exact ⟨(hchars l (by simp)).2, by omega⟩
    · have := length_le_fileOf (List.mem_cons_of_mem V0 hl)
      exact ⟨(hchars l (by simp [hl])).2, by omega⟩
    · exact ⟨by decide, by decide⟩
    · have := length_le_fileOf (List.mem_cons_self l fs)
      exact ⟨(hchars l (by simp)).2, by omega⟩
    · have := length_le_fileOf (List.mem_cons_of_mem F0 hl)
      exact ⟨(hchars l (by simp [hl])).2, by omega⟩
  have ht := parseShader_texts tmp (fileOf (("#shader vertex".toList :: V0 :: vs) ++
    ("#shader fragment".toList :: F0 :: fs)))
  rw [fileLines_fileOf _ hlines, foldlM_two_sections _ V0 F0 vs fs
    (fun l hl => (hchars l hl).1) hV0 hF0 hcontent hvlen hflen] at ht
  have hdv : strstr (fileOf (V0 :: vs)) divider = false := by
    apply strstr_fileOf_divider
    intro l hl
    rcases List.mem_cons.1 hl with rfl | hl
    · exact ⟨(hchars l (by simp)).1, hV0.2⟩
    · exact ⟨(hchars l (by simp [hl])).1, (hcontent l (by simp [hl])).1⟩
  have hdf : strstr (fileOf (F0 :: fs)) divider = false := by
    apply strstr_fileOf_divider
    intro l hl
    rcases List.mem_cons.1 hl with rfl | hl
    · exact ⟨(hchars l (by simp)).1, hF0.2⟩
    · exact ⟨(hchars l (by simp [hl])).1, (hcontent l (by simp [hl])).1⟩
  cases hp : parseShader tmp (some (fileOf (("#shader vertex".toList :: V0 :: vs) ++
      ("#shader fragment".toList :: F0 :: fs)))) with
  | error e => rw [hp] at ht; simp [Except.map] at ht
  | ok r =>
    rw [hp] at ht
    simp only [Except.map, ShaderSource.texts, Except.ok.injEq, Prod.mk.injEq] at ht
    exact ⟨r, rfl, ht.1, ht.2, hdv, hdf⟩

/-- C1, at a file with one content line in each section and arrays that
hold no NUL on entry. -/
theorem well_formed_two_sections_parse_witness :
    ∃ r, parseShader garbage (some (fileOf (("#shader vertex".toList ::
          "#version 120".toList :: ["void main();".toList]) ++
          ("#shader fragment".toList :: "#version 120".toList ::
            ["gl_FragColor = c;".toList])))) = .ok r ∧
      r.VertexShader.text =
        some (fileOf ("#version 120".toList :: ["void main();".toList])) ∧
      r.FragmentShader.text =
        some (fileOf ("#version 120".toList :: ["gl_FragColor = c;".toList])) ∧
      strstr (fileOf ("#version 120".toList :: ["void main();".toList])) divider = false ∧
      strstr (fileOf ("#version 120".toList :: ["gl_FragColor = c;".toList])) divider
        = false :=
  well_formed_two_sections_parse garbage "#version 120".toList "#version 120".toList
    ["void main();".toList] ["gl_FragColor = c;".toList]
    (by decide) (by decide) (by decide) (by decide) (by decide) (by decide)

/-- C4, refuted as stated: on a file whose first line is a content line the
call does not return the error NoActiveSection. The line is written through
`src` before anything was assigned to it, and nothing is returned. -/
theorem content_before_marker_returns_no_error :
    parseShader garbage (some "void main();\n#shader vertex\n#version 120\n".toList)
      = .error .wildPointer ∧
    parseResult
      (parseShader garbage (some "void main();\n#shader vertex\n#version 120\n".toList))
      ≠ some (.error .NoActiveSection) := by
  have h : parseShader garbage
      (some "void main();\n#shader vertex\n#version 120\n".toList) = .error .wildPointer := rfl
  refine ⟨h, ?_⟩
  rw [h]
  simp [parseResult]

/-- C4, amended. On every file in which a content line comes before any line
that contains "#shader", `parseShader` returns neither a NoActiveSection error
(it has no error result) nor a source set: the first line of the file is
written through `src` before anything was assigned to it. -/
theorem content_before_marker_is_undefined (tmp : ShaderSource) (fp : List Char)
    (pre post : List (List Char)) (c : List Char)
    (hlines : fileLines fp = pre ++ c :: post)
    (hpre : ∀ l ∈ pre, strstr l divider = false)
    (hc : strstr c divider = false ∧ strstr c version = false) :
    parseShader tmp (some fp) = .error .wildPointer ∧
      parseResult (parseShader tmp (some fp)) = none := by
  have h : parseShader tmp (some fp) = .error .wildPointer := by
    rw [parseShader_eq_foldlM, hlines]
    cases pre with
    | nil =>
      simp [List.foldlM_cons, parseLine_wild tmp hc.1, bind, Except.bind, Except.map]
    | cons p ps =>
      have hp := hpre p (List.mem_cons_self _ _)
      simp [List.foldlM_cons, parseLine_wild tmp hp, bind, Except.bind, Except.map]
  exact ⟨h, by rw [h]; rfl⟩

/-- C4 amended, at a file with a "#version" line and a content line before
the first marker. -/
theorem content_before_marker_is_undefined_witness :
    parseShader garbage (some "#version 120\nvoid main();\n#shader vertex\n".toList)
        = .error .wildPointer ∧
      parseResult
        (parseShader garbage (some "#version 120\nvoid main();\n#shader vertex\n".toList))
        = none :=
  content_before_marker_is_undefined garbage
    "#version 120\nvoid main();\n#shader vertex\n".toList ["#version 120\n".toList]
    ["#shader vertex\n".toList] "void main();\n".toList (by decide) (by decide) (by decide)

/-- C5, refuted as stated: on a file with the marker line "#shader geometry"
the call returns a source set, not the error UnknownSectionKind. The line
after the unknown marker goes to the vertex section, which is still current. -/
theorem unknown_section_kind_returns_source_set :
    parseResult (parseShader garbage (some
      "#shader vertex\n#version 120\n#shader geometry\nvoid main();\n#shader fragment\n#version 120\n".toList))
      = some (.ok (some "#version 120\nvoid main();\n".toList, some "#version 120\n".toList)) ∧
    parseResult (parseShader garbage (some
      "#shader vertex\n#version 120\n#shader geometry\nvoid main();\n#shader fragment\n#version 120\n".toList))
      ≠ some (.error .UnknownSectionKind) := by
  have h : parseResult (parseShader garbage (some
      "#shader vertex\n#version 120\n#shader geometry\nvoid main();\n#shader fragment\n#version 120\n".toList))
      = some (.ok (some "#version 120\nvoid main();\n".toList,
          some "#version 120\n".toList)) := rfl
  refine ⟨h, ?_⟩
  rw [h]
  simp

/-- C5, amended. A line that contains "#shader" and neither "vertex" nor
"fragment" is skipped: processing it changes neither the current section nor
either array, and `parseShader` ends exactly as it does on the file without
that line. No UnknownSectionKind error is returned. -/
theorem unknown_section_kind_is_skipped (tmp : ShaderSource) (fp fp2 : List Char)
    (pre post : List (List Char)) (m : List Char)
    (hlines : fileLines fp = pre ++ m :: post) (hlines2 : fileLines fp2 = pre ++ post)
    (hd : strstr m divider = true) (hv : strstr m v = false)
    (hf : strstr m f = false) :
    (∀ st, parseLine st m = .ok st) ∧
      parseShader tmp (some fp) = parseShader tmp (some fp2) ∧
      parseResult (parseShader tmp (some fp)) ≠ some (.error .UnknownSectionKind) := by
  have hm : ∀ st, parseLine st m = .ok st := fun st => parseLine_unknown_kind st hd hv hf
  refine ⟨hm, ?_, ?_⟩
  · rw [parseShader_eq_foldlM, parseShader_eq_foldlM, hlines, hlines2,
      foldlM_skip pre post m _ hm]
  · cases parseShader tmp (some fp) <;> simp [parseResult]

/-- C5 amended, at a file with the line "#shader geometry" in its vertex
section. -/
theorem unknown_section_kind_is_skipped_witness :
    (∀ st, parseLine st "#shader geometry\n".toList = .ok st) ∧
      parseShader garbage (some
        "#shader vertex\n#version 120\n#shader geometry\nvoid main();\n#shader fragment\n#version 120\n".toList)
        = parseShader garbage (some
        "#shader vertex\n#version 120\nvoid main();\n#shader fragment\n#version 120\n".toList) ∧
      parseResult (parseShader garbage (some
        "#shader vertex\n#version 120\n#shader geometry\nvoid main();\n#shader fragment\n#version 120\n".toList))
        ≠ some (.error .UnknownSectionKind) :=
  unknown_section_kind_is_skipped garbage
    "#shader vertex\n#version 120\n#shader geometry\nvoid main();\n#shader fragment\n#version 120\n".toList
    "#shader vertex\n#version 120\nvoid main();\n#shader fragment\n#version 120\n".toList
    ["#shader vertex\n".toList, "#version 120\n".toList]
    ["void main();\n".toList, "#shader fragment\n".toList, "#version 120\n".toList]
    "#shader geometry\n".toList (by decide) (by decide) (by decide) (by decide) (by decide)

/-- C8, refuted as stated: the file holds a vertex section only, and two calls
on it that start from different contents of `tmp.FragmentShader` return
different fragment texts. -/
theorem parse_twice_differs_on_missing_section :
    (parseShader ⟨CharArray.single 'a', CharArray.single 'a'⟩
        (some "#shader vertex\n#version 120\n".toList)).map ShaderSource.texts
      = .ok (some "#version 120\n".toList, some ['a']) ∧
    (parseShader ⟨CharArray.single 'a', CharArray.single 'b'⟩
        (some "#shader vertex\n#version 120\n".toList)).map ShaderSource.texts
      = .ok (some "#version 120\n".toList, some ['b']) ∧
    (parseShader ⟨CharArray.single 'a', CharArray.single 'a'⟩
        (some "#shader vertex\n#version 120\n".toList)).map ShaderSource.texts
      ≠ (parseShader ⟨CharArray.single 'a', CharArray.single 'b'⟩
        (some "#shader vertex\n#version 120\n".toList)).map ShaderSource.texts := by
  have h1 : (parseShader ⟨CharArray.single 'a', CharArray.single 'a'⟩
        (some "#shader vertex\n#version 120\n".toList)).map ShaderSource.texts
      = .ok (some "#version 120\n".toList, some ['a']) := rfl
  have h2 : (parseShader ⟨CharArray.single 'a', CharArray.single 'b'⟩
        (some "#shader vertex\n#version 120\n".toList)).map ShaderSource.texts
      = .ok (some "#version 120\n".toList, some ['b']) := rfl
  refine ⟨h1, h2, ?_⟩
  rw [h1, h2]
  intro h
  injection h with h
  injection h with _ h
  injection h with h
  injection h with h
  exact absurd h (by decide)

/-- C8, amended. On every file in which both sections occur and each takes its
text from a "#version" line first (no line is written before a section is
current, and no content line is appended to a section before its "#version"
line), two calls of `parseShader` end the same way whatever `tmp` held on
entry of each: either both return, with equal vertex texts and equal fragment
texts, or both leave defined behaviour at the same line. -/
theorem parse_twice_same_texts (tmp1 tmp2 : ShaderSource) (fp : List Char)
    (h : versionFirst (fileLines fp) none false false = true) :
    (parseShader tmp1 (some fp)).map ShaderSource.texts =
      (parseShader tmp2 (some fp)).map ShaderSource.texts := by
  rw [parseShader_texts, parseShader_texts]
  exact foldlM_agree (fileLines fp) _ _ false false rfl (fun h => by cases h)
    (fun h => by cases h) h

/-- C8 amended, at a two-section file and two different contents of `tmp`. -/
theorem parse_twice_same_texts_witness :
    (parseShader garbage (some
        "#shader vertex\n#version 120\nvoid main();\n#shader fragment\n#version 120\n".toList)).map
        ShaderSource.texts =
      (parseShader ⟨CharArray.single 'a', CharArray.single 'b'⟩ (some
        "#shader vertex\n#version 120\nvoid main();\n#shader fragment\n#version 120\n".toList)).map
        ShaderSource.texts :=
  parse_twice_same_texts garbage ⟨CharArray.single 'a', CharArray.single 'b'⟩
    "#shader vertex\n#version 120\nvoid main();\n#shader fragment\n#version 120\n".toList
    (by decide)

/-- C9, at the failing input: a vertex section of 512 bytes, a "#version" line
of 13 bytes and a content line of 498 letters and a newline. Appending the
content line makes `strcat` write past the end of `tmp.VertexShader`; the
complete text of the section is not what the call returns. -/
theorem section_of_512_bytes_overflows :
    parseShader garbage
      (some ("#shader vertex\n#version 120\n".toList ++ List.replicate 498 'a' ++ "\n".toList))
      = .error .overflow ∧
    ¬ ∃ r, parseShader garbage
      (some ("#shader vertex\n#version 120\n".toList ++ List.replicate 498 'a' ++ "\n".toList))
        = .ok r ∧
      r.VertexShader.text =
        some ("#version 120\n".toList ++ List.replicate 498 'a' ++ "\n".toList) := by
  have h : parseShader garbage
      (some ("#shader vertex\n#version 120\n".toList ++ List.replicate 498 'a' ++ "\n".toList))
      = .error .overflow := rfl
  refine ⟨h, ?_⟩
  rw [h]
  rintro ⟨r, hr, _⟩
  cases hr

/-- C6, refuted as stated: the vertex source (no semicolon) fails to compile
and the fragment source compiles, yet `createShader` returns 1, the very
handle `glCreateProgram` handed out in the first call, and the program object
of that name is still there. -/
theorem failed_vertex_still_yields_program_handle :
    (sampleDriver.compile GL_VERTEX_SHADER "gl_Position = p".toList).1 = false ∧
    (sampleDriver.compile GL_FRAGMENT_SHADER "gl_FragColor = c;".toList).1 = true ∧
    ∃ w', createShader sampleDriver "gl_Position = p".toList "gl_FragColor = c;".toList
        emptyWorld = .ok (1, w') ∧
      w'.calls.head? = some (.glCreateProgram 1) ∧
      w'.programs.map (fun p => p.name) = [1] :=
  ⟨by decide, by decide, _, rfl, rfl, rfl⟩

/-- C6, amended. When the vertex source fails to compile (with a log that is
not empty) and the fragment source compiles, `createShader` prints the log of
the vertex compilation and "FILE: vertex", still creates a fragment shader,
hands it the fragment source, compiles and attaches it, links and validates,
and returns the handle obtained from `glCreateProgram`, which is not zero and
names a program object that is still there. -/
theorem failed_vertex_reported_fragment_compiled (d : Driver) (w : World)
    (vsrc fsrc : List Char)
    (hv : (d.compile GL_VERTEX_SHADER vsrc).1 = false)
    (hvl : (d.compile GL_VERTEX_SHADER vsrc).2 ≠ [])
    (hf : (d.compile GL_FRAGMENT_SHADER fsrc).1 = true) :
    ∃ w', createShader d vsrc fsrc w = .ok ((glCreateProgram d w).1, w') ∧
      (glCreateProgram d w).1 ≠ 0 ∧
      w'.programs.map (fun p => p.name) =
        w.programs.map (fun p => p.name) ++ [(glCreateProgram d w).1] ∧
      w'.stdout = w.stdout ++
        [(d.compile GL_VERTEX_SHADER vsrc).2 ++ "\n".toList, "FILE: vertex\n".toList] ∧
      w'.calls = w.calls ++
        [.glCreateProgram (d.newName w.names),
         .glCreateShader GL_VERTEX_SHADER (d.newName (glCreateProgram d w).2.names),
         .glShaderSource (d.newName (glCreateProgram d w).2.names) vsrc,
         .glCompileShader (d.newName (glCreateProgram d w).2.names),
         .glGetShaderiv (d.newName (glCreateProgram d w).2.names) GL_COMPILE_STATUS,
         .glGetShaderiv (d.newName (glCreateProgram d w).2.names) GL_INFO_LOG_LENGTH,
         .glGetShaderInfoLog (d.newName (glCreateProgram d w).2.names)
           ((d.compile GL_VERTEX_SHADER vsrc).2.length + 1),
         .glDeleteShader (d.newName (glCreateProgram d w).2.names),
         .glCreateShader GL_FRAGMENT_SHADER (d.newName (glCreateProgram d w).2.names),
         .glShaderSource (d.newName (glCreateProgram d w).2.names) fsrc,
         .glCompileShader (d.newName (glCreateProgram d w).2.names),
         .glGetShaderiv (d.newName (glCreateProgram d w).2.names) GL_COMPILE_STATUS,
         .glAttachShader (d.newName w.names) 0,
         .glAttachShader (d.newName w.names) (d.newName (glCreateProgram d w).2.names),
         .glLinkProgram (d.newName w.names),
         .glValidateProgram (d.newName w.names),
         .glDeleteShader 0,
         .glDeleteShader (d.newName (glCreateProgram d w).2.names)] := by
  obtain ⟨w', h1, h2, h3, h4⟩ := createShader_vertex_fail d w vsrc fsrc hv hvl hf
  exact ⟨w', h1, d.newName_ne_zero _, h2, h3, h4⟩

/-- C6 amended, at a vertex source without a semicolon. -/
theorem failed_vertex_reported_fragment_compiled_witness :
    ∃ w', createShader sampleDriver "gl_Position = p".toList "gl_FragColor = c;".toList
        emptyWorld = .ok (1, w') ∧
      w'.stdout = ["syntax error\n".toList, "FILE: vertex\n".toList] ∧
      Call.glShaderSource 2 "gl_FragColor = c;".toList ∈ w'.calls ∧
      Call.glCompileShader 2 ∈ w'.calls := by
  obtain ⟨w', h1, -, -, h3, h4⟩ := failed_vertex_reported_fragment_compiled sampleDriver
    emptyWorld "gl_Position = p".toList "gl_FragColor = c;".toList (by decide) (by decide)
    (by decide)
  refine ⟨w', h1, h3, ?_, ?_⟩
  · rw [h4]; decide
  · rw [h4]; decide

/-- C7, refuted as stated: both sources compile, and after the call the
backend holds two shader objects it did not hold before. Each was handed to
`glDeleteShader`, but while attached to the program, so it is only flagged
for deletion and stays. -/
theorem compiled_stages_stay_in_backend :
    ∃ w', createShader sampleDriver "gl_Position = p;".toList "gl_FragColor = c;".toList
        emptyWorld = .ok (1, w') ∧
      w'.shaders =
        [⟨2, GL_VERTEX_SHADER, "gl_Position = p;".toList, true, [], true, [1]⟩,
         ⟨4, GL_FRAGMENT_SHADER, "gl_FragColor = c;".toList, true, [], true, [1]⟩] ∧
      deletedShaders w'.calls = [2, 4] ∧
      w'.shaders ≠ emptyWorld.shaders :=
  ⟨_, rfl, rfl, rfl, by decide⟩

/-- C7, amended. Whether each of the two sources compiles or not, and whatever
the driver makes of linking and validation: every call of `createShader` that
returns has handed every shader handle it created to `glDeleteShader` exactly
once. Two handles are created before the first `glAttachShader`; the handle
of a failed compilation is deleted there by `compileShader`, attached to
nothing, and 0 is passed on in its place; the handle of a successful
compilation is deleted by `createShader` in its last two calls, after
`glAttachShader`, `glLinkProgram` and `glValidateProgram`. The shader objects
of the backend after the call are those before the call and, for each
compilation that succeeded, the compiled shader, flagged for deletion and
attached to the returned program: the table is the same as before only when
both compilations fail. The calls that return are those in which a failed
compilation comes with a log that is not empty. -/
theorem createShader_deletes_stage_handles (d : Driver) (w : World)
    (vsrc fsrc : List Char) :
    ((∃ r, createShader d vsrc fsrc w = .ok r) ↔
      (((d.compile GL_VERTEX_SHADER vsrc).1 = false →
          (d.compile GL_VERTEX_SHADER vsrc).2 ≠ []) ∧
        ((d.compile GL_FRAGMENT_SHADER fsrc).1 = false →
          (d.compile GL_FRAGMENT_SHADER fsrc).2 ≠ []))) ∧
    ∀ program w', createShader d vsrc fsrc w = .ok (program, w') →
      ∃ vs fs pre,
        (vs = 0 ↔ (d.compile GL_VERTEX_SHADER vsrc).1 = false) ∧
        (fs = 0 ↔ (d.compile GL_FRAGMENT_SHADER fsrc).1 = false) ∧
        w'.calls = w.calls ++ pre ++
          [.glAttachShader program vs, .glAttachShader program fs,
           .glLinkProgram program, .glValidateProgram program,
           .glDeleteShader vs, .glDeleteShader fs] ∧
        (createdShaders pre).length = 2 ∧
        (createdShaders pre).Perm
          (deletedShaders pre ++ [vs, fs].filter (fun x => decide (x ≠ 0))) ∧
        w'.shaders = w.shaders ++
          (if vs = 0 then []
            else [⟨vs, GL_VERTEX_SHADER, vsrc, true, (d.compile GL_VERTEX_SHADER vsrc).2,
              true, [program]⟩]) ++
          (if fs = 0 then []
            else [⟨fs, GL_FRAGMENT_SHADER, fsrc, true,
              (d.compile GL_FRAGMENT_SHADER fsrc).2, true, [program]⟩]) := by
  refine ⟨createShader_returns_iff d w vsrc fsrc, ?_⟩
  intro program w' h
  have hlog := (createShader_returns_iff d w vsrc fsrc).1 ⟨_, h⟩
  obtain ⟨w2, vs, fs, pre, h2, hi, hj, hc, hl, hp, hs⟩ :=
    createShader_effect d w vsrc fsrc hlog.1 hlog.2
  rw [h] at h2
  injection h2 with h2
  injection h2 with h3 h4
  subst h3
  subst h4
  exact ⟨vs, fs, pre, hi, hj, hc, hl, hp, hs⟩

/-- C7 amended, at two sources that compile and a backend that already holds
a shader object: the call returns, and the table then holds that object and
the two compiled shaders, flagged for deletion and attached to the program. -/
theorem createShader_deletes_stage_handles_witness :
    ∃ r, createShader sampleDriver "gl_Position = p;".toList "gl_FragColor = c;".toList
        ⟨[⟨7, GL_VERTEX_SHADER, [], false, [], false, []⟩], [], [], []⟩ = .ok r ∧
      ∃ vs fs pre,
        (vs = 0 ↔
          (sampleDriver.compile GL_VERTEX_SHADER "gl_Position = p;".toList).1 = false) ∧
        (fs = 0 ↔
          (sampleDriver.compile GL_FRAGMENT_SHADER "gl_FragColor = c;".toList).1 = false) ∧
        r.2.calls = [] ++ pre ++
          [.glAttachShader r.1 vs, .glAttachShader r.1 fs,
           .glLinkProgram r.1, .glValidateProgram r.1,
           .glDeleteShader vs, .glDeleteShader fs] ∧
        (createdShaders pre).length = 2 ∧
        (createdShaders pre).Perm
          (deletedShaders pre ++ [vs, fs].filter (fun x => decide (x ≠ 0))) ∧
        r.2.shaders = [⟨7, GL_VERTEX_SHADER, [], false, [], false, []⟩] ++
          (if vs = 0 then []
            else [⟨vs, GL_VERTEX_SHADER, "gl_Position = p;".toList, true,
              (sampleDriver.compile GL_VERTEX_SHADER "gl_Position = p;".toList).2,
              true, [r.1]⟩]) ++
          (if fs = 0 then []
            else [⟨fs, GL_FRAGMENT_SHADER, "gl_FragColor = c;".toList, true,
              (sampleDriver.compile GL_FRAGMENT_SHADER "gl_FragColor = c;".toList).2,
              true, [r.1]⟩]) :=
  match (createShader_deletes_stage_handles sampleDriver
      ⟨[⟨7, GL_VERTEX_SHADER, [], false, [], false, []⟩], [], [], []⟩
      "gl_Position = p;".toList "gl_FragColor = c;".toList).1.2 ⟨by decide, by decide⟩ with
  | ⟨(program, w'), h⟩ =>
    ⟨(program, w'), h, (createShader_deletes_stage_handles sampleDriver
      ⟨[⟨7, GL_VERTEX_SHADER, [], false, [], false, []⟩], [], [], []⟩
      "gl_Position = p;".toList "gl_FragColor = c;".toList).2 program w' h⟩

end Renderer
